import Mathlib

/-!
# Kargo: project admission webhook and Argo CD Application reconciler

A shallow embedding of `internal/webhook/project/webhook.go` and of
`internal/controller/applications/applications.go`.

* Collaborators (`getNamespaceFn`, `createNamespaceFn`, `createRoleBindingFn`, and the
  overridable `ensureNamespaceFn` / `ensureSecretPermissionsFn`) are state-passing
  functions over an arbitrary world `σ`.
* Go `error` values are an inductive type `Error`; a `nil` error is `none`.
* Constants of package `api/v1alpha1` whose declarations are not part of the
  sources at hand are carried by the parameter structure `kargoapi.Constants`.
-/

namespace Kargo

/-! ## Kubernetes and Kargo API data -/

/-- Constants declared in package `api/v1alpha1` (label key, label value, finalizer name,
API group). Their values are not read from the sources, so they are parameters. -/
structure kargoapi.Constants where
  ProjectLabelKey : String
  LabelTrueValue : String
  FinalizerName : String
  Group : String
  deriving DecidableEq, Repr

/-- Modelled from the spec: the declaration of `kargoapi.PromotionPolicy` is not among the
sources; the spec writes a policy as `{stage: "a"}` and the code reads only `Stage`. -/
structure kargoapi.PromotionPolicy where
  Stage : String
  deriving DecidableEq, Repr

/-- Modelled from the spec: `kargoapi.ProjectSpec`, of which the code reads only
`PromotionPolicies`. -/
structure kargoapi.ProjectSpec where
  PromotionPolicies : List kargoapi.PromotionPolicy
  deriving DecidableEq, Repr

/-- Modelled from the spec: `kargoapi.Project`; identity (`Name`, `UID`) and an optional
(pointer) spec. -/
structure kargoapi.Project where
  Name : String
  UID : String
  Spec : Option kargoapi.ProjectSpec
  deriving DecidableEq, Repr

/-- The `schema.GroupKind` pair. -/
structure schema.GroupKind where
  Group : String
  Kind : String
  deriving DecidableEq, Repr

/-- The `schema.GroupResource` pair. -/
structure schema.GroupResource where
  Group : String
  Resource : String
  deriving DecidableEq, Repr

/-- The `types.NamespacedName` key. -/
structure types.NamespacedName where
  Namespace : String
  Name : String
  deriving DecidableEq, Repr

/-- The `metav1.OwnerReference` entry; only `UID` is inspected. -/
structure metav1.OwnerReference where
  Name : String
  UID : String
  deriving DecidableEq, Repr

/-- A `corev1.Namespace`, reduced to the metadata the webhook reads or writes. A Go map that
may be `nil` is an optional association list. -/
structure corev1.Namespace where
  Name : String
  Labels : Option (List (String × String))
  OwnerReferences : List metav1.OwnerReference
  Finalizers : List String
  deriving DecidableEq, Repr

/-- The `rbacv1.RoleRef` of a role binding. -/
structure rbacv1.RoleRef where
  APIGroup : String
  Kind : String
  Name : String
  deriving DecidableEq, Repr

/-- The `rbacv1.Subject` of a role binding. -/
structure rbacv1.Subject where
  Kind : String
  Name : String
  Namespace : String
  deriving DecidableEq, Repr

/-- An `rbacv1.RoleBinding`. -/
structure rbacv1.RoleBinding where
  Name : String
  Namespace : String
  RoleRef : rbacv1.RoleRef
  Subjects : List rbacv1.Subject
  deriving DecidableEq, Repr

/-- The API group name of package `rbac/v1`. -/
def rbacv1.GroupName : String := "rbac.authorization.k8s.io"

/-- Go map indexing `m[k]` on a `map[string]string`: the zero value `""` for a `nil` map or
an absent key. -/
def mapIndex (m : Option (List (String × String))) (k : String) : String :=
  match m with
  | none => ""
  | some l => (l.lookup k).getD ""

/-! ## Field paths and field errors (`k8s.io/apimachinery/pkg/util/validation/field`) -/

/-- A `field.Path`: a root name followed by child names. -/
inductive field.Path where
  | root (name : String)
  | child (parent : field.Path) (name : String)
  deriving DecidableEq, Repr

/-- The constructor `field.NewPath(name)`. -/
def field.NewPath (name : String) : field.Path := field.Path.root name

/-- The method `(*Path).Child(name)`. -/
def field.Path.Child (p : field.Path) (name : String) : field.Path := field.Path.child p name

/-- The method `(*Path).String()`: the names joined by dots. -/
def field.Path.String : field.Path → String
  | field.Path.root name => name
  | field.Path.child parent name => parent.String ++ "." ++ name

/-- The `field.ErrorType` tag; only `ErrorTypeInvalid` is produced here. -/
inductive field.ErrorType where
  | ErrorTypeInvalid
  deriving DecidableEq, Repr

/-- A `field.Error`. -/
structure field.Error where
  Type_ : field.ErrorType
  Field : String
  BadValue : List kargoapi.PromotionPolicy
  Detail : String
  deriving DecidableEq, Repr

/-- A `field.ErrorList`; `nil` is the empty list. -/
abbrev field.ErrorList := List field.Error

/-- The constructor `field.Invalid(path, value, detail)`. -/
def field.Invalid (f : field.Path) (value : List kargoapi.PromotionPolicy) (detail : String) :
    field.Error :=
  { Type_ := field.ErrorType.ErrorTypeInvalid, Field := f.String, BadValue := value,
    Detail := detail }

/-! ## Errors (`errors`, `k8s.io/apimachinery/pkg/api/errors`) -/

/-- The `metav1.StatusReason` of an API status error. -/
inductive metav1.StatusReason where
  | Unknown
  | NotFound
  | AlreadyExists
  | Conflict
  | Invalid
  | InternalError
  | Forbidden
  | Timeout
  deriving DecidableEq, Repr

/-- Go `error` values that reach or leave the webhook. -/
inductive Error where
  /-- A plain error made by `errors.New` or `errors.Errorf`. -/
  | New (message : String)
  /-- An error annotated by `errors.Wrap` or `errors.Wrapf`. -/
  | Wrap (err : Error) (message : String)
  /-- An API status error returned by a collaborator. -/
  | Status (reason : metav1.StatusReason) (message : String)
  /-- The result of `apierrors.NewInvalid`. -/
  | Invalid (qualifiedKind : schema.GroupKind) (name : String) (errs : field.ErrorList)
  /-- The result of `apierrors.NewConflict`. -/
  | Conflict (qualifiedResource : schema.GroupResource) (name : String) (err : Error)
  /-- The result of `apierrors.NewInternalError`. -/
  | InternalError (err : Error)
  deriving DecidableEq, Repr

/-- The function `apierrors.ReasonForError`: the reason of the first API status error in the
chain of wrapped errors, `Unknown` if there is none. -/
def apierrors.ReasonForError : Error → metav1.StatusReason
  | Error.New _ => metav1.StatusReason.Unknown
  | Error.Wrap err _ => apierrors.ReasonForError err
  | Error.Status reason _ => reason
  | Error.Invalid _ _ _ => metav1.StatusReason.Invalid
  | Error.Conflict _ _ _ => metav1.StatusReason.Conflict
  | Error.InternalError _ => metav1.StatusReason.InternalError

/-- The predicate `apierrors.IsNotFound`. -/
def apierrors.IsNotFound (err : Error) : Bool :=
  apierrors.ReasonForError err == metav1.StatusReason.NotFound

/-- The predicate `apierrors.IsAlreadyExists`. -/
def apierrors.IsAlreadyExists (err : Error) : Bool :=
  apierrors.ReasonForError err == metav1.StatusReason.AlreadyExists

/-- The predicate `apierrors.IsInvalid`. -/
def apierrors.IsInvalid (err : Error) : Bool :=
  apierrors.ReasonForError err == metav1.StatusReason.Invalid

/-- The predicate `apierrors.IsConflict`. -/
def apierrors.IsConflict (err : Error) : Bool :=
  apierrors.ReasonForError err == metav1.StatusReason.Conflict

/-- Formatting verb `%q` for names: the name between double quotes (names are DNS labels,
which need no escaping). -/
def quote (s : String) : String := "\"" ++ s ++ "\""

/-! ## Admission requests and contexts -/

/-- An `admission.Request`, reduced to its optional `DryRun` flag. -/
structure admission.Request where
  DryRun : Option Bool
  deriving DecidableEq, Repr

/-- A `context.Context`, reduced to the admission request it may carry. -/
structure Context where
  request : Option admission.Request
  deriving DecidableEq, Repr

/-- The function `admission.RequestFromContext`. -/
def admission.RequestFromContext (ctx : Context) : Except Error admission.Request :=
  match ctx.request with
  | some req => Except.ok req
  | none => Except.error (Error.New "admission.Request not found in context")

/-- The `admission.Warnings` list; the webhook always returns `nil`. -/
abbrev admission.Warnings := List String

/-- The function `controllerutil.AddFinalizer` on a namespace: append the finalizer unless it
is already present. -/
def controllerutil.AddFinalizer (ns : corev1.Namespace) (finalizer : String) :
    corev1.Namespace :=
  if finalizer ∈ ns.Finalizers then ns
  else { ns with Finalizers := ns.Finalizers ++ [finalizer] }

/-! ## The webhook -/

/-- The value `projectGroupKind`. -/
def projectGroupKind (api : kargoapi.Constants) : schema.GroupKind :=
  { Group := api.Group, Kind := "Project" }

/-- The value `projectGroupResource`. -/
def projectGroupResource (api : kargoapi.Constants) : schema.GroupResource :=
  { Group := api.Group, Resource := "projects" }

/-- The configuration `WebhookConfig`. -/
structure WebhookConfig where
  KargoNamespace : String
  deriving DecidableEq, Repr

/-- The `webhook` struct: configuration and overridable behaviours, over a world `σ`. -/
structure webhook (σ : Type) where
  cfg : WebhookConfig
  validateSpecFn : field.Path → Option kargoapi.ProjectSpec → field.ErrorList
  ensureNamespaceFn : Context → kargoapi.Project → σ → Option Error × σ
  ensureSecretPermissionsFn : Context → kargoapi.Project → σ → Option Error × σ
  getNamespaceFn : Context → types.NamespacedName → σ → Except Error corev1.Namespace × σ
  createNamespaceFn : Context → corev1.Namespace → σ → Option Error × σ
  createRoleBindingFn : Context → rbacv1.RoleBinding → σ → Option Error × σ

/-- The loop of `validatePromotionPolicies`: `stageNames` is the set of stage names seen so
far; the first policy whose stage is already in it ends the loop with one field error. -/
def validatePromotionPolicies.loop (f : field.Path)
    (promotionPolicies : List kargoapi.PromotionPolicy) :
    List kargoapi.PromotionPolicy → List String → field.ErrorList
  | [], _ => []
  | promotionPolicy :: rest, stageNames =>
    if promotionPolicy.Stage ∈ stageNames then
      [field.Invalid f promotionPolicies
        ("multiple " ++ f.String ++ " reference stage " ++ promotionPolicy.Stage)]
    else
      validatePromotionPolicies.loop f promotionPolicies rest
        (promotionPolicy.Stage :: stageNames)

/-- The method `validatePromotionPolicies`. -/
def validatePromotionPolicies (f : field.Path)
    (promotionPolicies : List kargoapi.PromotionPolicy) : field.ErrorList :=
  validatePromotionPolicies.loop f promotionPolicies promotionPolicies []

/-- The method `validateSpec`: a `nil` spec is valid. -/
def validateSpec (f : field.Path) (spec : Option kargoapi.ProjectSpec) : field.ErrorList :=
  match spec with
  | none => []
  | some spec => validatePromotionPolicies (f.Child "promotionPolicies") spec.PromotionPolicies

/-- The ownership test of `ensureNamespace` on a namespace that was found. -/
def namespaceConflict (api : kargoapi.Constants) (ns : corev1.Namespace)
    (project : kargoapi.Project) : Bool :=
  (ns.OwnerReferences.length == 0 &&
    (ns.Labels.isNone || mapIndex ns.Labels api.ProjectLabelKey != api.LabelTrueValue)) ||
  (ns.OwnerReferences.length == 1 &&
    (ns.OwnerReferences.map (fun o => o.UID)).head? != some project.UID) ||
  decide (ns.OwnerReferences.length > 1)

/-- The method `ensureNamespace`. -/
def ensureNamespace {σ : Type} (api : kargoapi.Constants) (w : webhook σ) (ctx : Context)
    (project : kargoapi.Project) (s : σ) : Option Error × σ :=
  match w.getNamespaceFn ctx { Namespace := "", Name := project.Name } s with
  | (Except.ok ns, s1) =>
    if namespaceConflict api ns project then
      (some (Error.Conflict (projectGroupResource api) project.Name
        (Error.New ("failed to initialize Project " ++ quote project.Name ++
          " because namespace " ++ quote project.Name ++ " already exists"))), s1)
    else
      (none, s1)
  | (Except.error err, s1) =>
    if !apierrors.IsNotFound err then
      (some (Error.InternalError
        (Error.Wrap err ("error getting namespace " ++ quote project.Name))), s1)
    else
      let ns : corev1.Namespace :=
        { Name := project.Name
          Labels := some [(api.ProjectLabelKey, api.LabelTrueValue)]
          OwnerReferences := []
          Finalizers := [] }
      let ns := controllerutil.AddFinalizer ns api.FinalizerName
      match w.createNamespaceFn ctx ns s1 with
      | (some err, s2) =>
        (some (Error.InternalError
          (Error.Wrap err ("error creating namespace " ++ quote project.Name))), s2)
      | (none, s2) => (none, s2)

/-- The constant `roleBindingName` of `ensureSecretPermissions`. -/
def roleBindingName : String := "kargo-api-server-manage-project-secrets"

/-- The method `ensureSecretPermissions`. -/
def ensureSecretPermissions {σ : Type} (w : webhook σ) (ctx : Context)
    (project : kargoapi.Project) (s : σ) : Option Error × σ :=
  let roleBinding : rbacv1.RoleBinding :=
    { Name := roleBindingName
      Namespace := project.Name
      RoleRef := { APIGroup := rbacv1.GroupName, Kind := "ClusterRole",
                   Name := "kargo-secret-manager" }
      Subjects := [{ Kind := "ServiceAccount", Name := "kargo-api",
                     Namespace := w.cfg.KargoNamespace }] }
  match w.createRoleBindingFn ctx roleBinding s with
  | (some err, s1) =>
    if apierrors.IsAlreadyExists err then
      (none, s1)
    else
      (some (Error.InternalError
        (Error.Wrap err ("error creating role binding " ++ quote roleBinding.Name ++
          " in project namespace " ++ quote project.Name))), s1)
  | (none, s1) => (none, s1)

/-- The method `ValidateCreate`. -/
def ValidateCreate {σ : Type} (api : kargoapi.Constants) (w : webhook σ) (ctx : Context)
    (project : kargoapi.Project) (s : σ) : (admission.Warnings × Option Error) × σ :=
  let errs := w.validateSpecFn (field.NewPath "spec") project.Spec
  if errs.length > 0 then
    (([], some (Error.Invalid (projectGroupKind api) project.Name errs)), s)
  else
    match admission.RequestFromContext ctx with
    | Except.error err =>
      (([], some (Error.InternalError
        (Error.Wrap err "error getting admission request from context"))), s)
    | Except.ok req =>
      if req.DryRun = some true then
        (([], none), s)
      else
        match w.ensureNamespaceFn ctx project s with
        | (some err, s1) => (([], some err), s1)
        | (none, s1) =>
          let r := w.ensureSecretPermissionsFn ctx project s1
          (([], r.1), r.2)

/-- A `client.Object` handed to the cluster client: a namespace or a role binding. -/
inductive client.Object where
  | Namespace (ns : corev1.Namespace)
  | RoleBinding (rb : rbacv1.RoleBinding)
  deriving DecidableEq, Repr

/-- The part of `client.Client` the webhook is wired to: `Get` of a namespace and `Create`. -/
structure client.Client (σ : Type) where
  Get : Context → types.NamespacedName → σ → Except Error corev1.Namespace × σ
  Create : Context → client.Object → σ → Option Error × σ

/-- The constructor `newWebhook`. The struct is first built with the configuration and the
client-backed functions; the three method-valued fields are then bound to the methods of
that same receiver. -/
def newWebhook {σ : Type} (api : kargoapi.Constants) (kubeClient : client.Client σ)
    (cfg : WebhookConfig) : webhook σ :=
  let w : webhook σ :=
    { cfg := cfg
      validateSpecFn := fun _ _ => []
      ensureNamespaceFn := fun _ _ s => (none, s)
      ensureSecretPermissionsFn := fun _ _ s => (none, s)
      getNamespaceFn := kubeClient.Get
      createNamespaceFn := fun ctx ns => kubeClient.Create ctx (client.Object.Namespace ns)
      createRoleBindingFn := fun ctx rb => kubeClient.Create ctx (client.Object.RoleBinding rb) }
  { w with
    validateSpecFn := validateSpec
    ensureNamespaceFn := ensureNamespace api w
    ensureSecretPermissionsFn := ensureSecretPermissions w }

/-! ## Observation of collaborator calls -/

/-- One invocation of an overridable behaviour of the webhook, with its argument. -/
inductive Call where
  | ensureNamespace (project : kargoapi.Project)
  | ensureSecretPermissions (project : kargoapi.Project)
  | getNamespace (key : types.NamespacedName)
  | createNamespace (ns : corev1.Namespace)
  | createRoleBinding (rb : rbacv1.RoleBinding)
  deriving DecidableEq, Repr

/-- The same webhook over a world that also carries the list of calls made so far: every
behaviour acts on the world as before and appends its own call to the list. -/
def webhook.recording {σ : Type} (w : webhook σ) : webhook (σ × List Call) :=
  { cfg := w.cfg
    validateSpecFn := w.validateSpecFn
    ensureNamespaceFn := fun ctx project st =>
      ((w.ensureNamespaceFn ctx project st.1).1,
        ((w.ensureNamespaceFn ctx project st.1).2, st.2 ++ [Call.ensureNamespace project]))
    ensureSecretPermissionsFn := fun ctx project st =>
      ((w.ensureSecretPermissionsFn ctx project st.1).1,
        ((w.ensureSecretPermissionsFn ctx project st.1).2,
          st.2 ++ [Call.ensureSecretPermissions project]))
    getNamespaceFn := fun ctx key st =>
      ((w.getNamespaceFn ctx key st.1).1,
        ((w.getNamespaceFn ctx key st.1).2, st.2 ++ [Call.getNamespace key]))
    createNamespaceFn := fun ctx ns st =>
      ((w.createNamespaceFn ctx ns st.1).1,
        ((w.createNamespaceFn ctx ns st.1).2, st.2 ++ [Call.createNamespace ns]))
    createRoleBindingFn := fun ctx rb st =>
      ((w.createRoleBindingFn ctx rb st.1).1,
        ((w.createRoleBindingFn ctx rb st.1).2, st.2 ++ [Call.createRoleBinding rb])) }

/-! ## An explicit store of namespaces and role bindings -/

/-- A cluster reduced to its namespaces and role bindings. -/
structure Store where
  namespaces : List corev1.Namespace
  roleBindings : List rbacv1.RoleBinding
  deriving DecidableEq, Repr

/-- Lookup of a namespace by name: not-found exactly when no namespace has that name; the
store is not changed. -/
def Store.Get (_ctx : Context) (key : types.NamespacedName) (st : Store) :
    Except Error corev1.Namespace × Store :=
  match st.namespaces.find? (fun ns => ns.Name == key.Name) with
  | some ns => (Except.ok ns, st)
  | none =>
    (Except.error (Error.Status metav1.StatusReason.NotFound
      ("namespaces " ++ quote key.Name ++ " not found")), st)

/-- Creation of an object: already-exists exactly when an object of the same kind and key is
present (the store is then not changed); otherwise the object is added. -/
def Store.Create (_ctx : Context) (obj : client.Object) (st : Store) : Option Error × Store :=
  match obj with
  | client.Object.Namespace ns =>
    if st.namespaces.any (fun n => n.Name == ns.Name) then
      (some (Error.Status metav1.StatusReason.AlreadyExists
        ("namespaces " ++ quote ns.Name ++ " already exists")), st)
    else
      (none, { st with namespaces := st.namespaces ++ [ns] })
  | client.Object.RoleBinding rb =>
    if st.roleBindings.any (fun b => b.Namespace == rb.Namespace && b.Name == rb.Name) then
      (some (Error.Status metav1.StatusReason.AlreadyExists
        ("rolebindings " ++ quote rb.Name ++ " already exists")), st)
    else
      (none, { st with roleBindings := st.roleBindings ++ [rb] })

/-- The cluster client backed by a `Store`. -/
def Store.client : client.Client Store :=
  { Get := Store.Get, Create := Store.Create }

/-! ## Stage names of a policy list -/

/-- The stage names of a list of promotion policies, in list order. -/
def stageNamesOf (promotionPolicies : List kargoapi.PromotionPolicy) : List String :=
  promotionPolicies.map (fun p => p.Stage)

/-- A policy list with repeats: `[a, b, a, b]`. -/
def exampleDuplicatePolicies : List kargoapi.PromotionPolicy :=
  [{ Stage := "a" }, { Stage := "b" }, { Stage := "a" }, { Stage := "b" }]

/-! ## Values the properties below speak about -/

/-- The namespace described for a project: named like the project, labelled as
project-owned, carrying the deletion finalizer, without owner references. -/
def projectNamespace (api : kargoapi.Constants) (project : kargoapi.Project) :
    corev1.Namespace :=
  { Name := project.Name
    Labels := some [(api.ProjectLabelKey, api.LabelTrueValue)]
    OwnerReferences := []
    Finalizers := [api.FinalizerName] }

/-- The role binding described for a project: the fixed name in the namespace named like the
project, role `kargo-secret-manager`, subject service account `kargo-api` of the Kargo
namespace. -/
def secretsRoleBinding (kargoNamespace : String) (project : kargoapi.Project) :
    rbacv1.RoleBinding :=
  { Name := "kargo-api-server-manage-project-secrets"
    Namespace := project.Name
    RoleRef := { APIGroup := "rbac.authorization.k8s.io", Kind := "ClusterRole",
                 Name := "kargo-secret-manager" }
    Subjects := [{ Kind := "ServiceAccount", Name := "kargo-api",
                   Namespace := kargoNamespace }] }

/-- The ownership conflict as the specification words it: no owner and no project-owned
label (key absent or value not the true value), or more than one owner, or exactly one owner
whose UID is not the UID of the project. -/
def ownershipConflict (api : kargoapi.Constants) (ns : corev1.Namespace)
    (project : kargoapi.Project) : Prop :=
  (ns.OwnerReferences.length = 0 ∧
    ¬ ∃ l, ns.Labels = some l ∧ l.lookup api.ProjectLabelKey = some api.LabelTrueValue) ∨
  ns.OwnerReferences.length > 1 ∨
  (∃ o, ns.OwnerReferences = [o] ∧ o.UID ≠ project.UID)

/-- Sample constants of package `api/v1alpha1`. -/
def exampleConstants : kargoapi.Constants :=
  { ProjectLabelKey := "kargo.akuity.io/project"
    LabelTrueValue := "true"
    FinalizerName := "kargo.akuity.io/finalizer"
    Group := "kargo.akuity.io" }

/-- Sample project `team1` without a spec. -/
def exampleProject : kargoapi.Project :=
  { Name := "team1", UID := "uid-team1", Spec := none }

/-- Sample foreign namespace `team1`: no labels, no owners. -/
def foreignNamespace : corev1.Namespace :=
  { Name := "team1", Labels := none, OwnerReferences := [], Finalizers := [] }

/-- Sample store holding only the foreign namespace `team1`. -/
def foreignStore : Store :=
  { namespaces := [foreignNamespace], roleBindings := [] }

/-- Sample empty store. -/
def emptyStore : Store :=
  { namespaces := [], roleBindings := [] }

/-- Sample webhook wired to the store-backed client. -/
def storeWebhook : webhook Store :=
  newWebhook exampleConstants Store.client { KargoNamespace := "kargo" }

/-- Sample admission context: a request that is not a dry run. -/
def liveContext : Context :=
  { request := some { DryRun := none } }

/-- Sample webhook over a trivial world whose namespace lookup reports not-found and whose
namespace creation then reports already-exists, as when a concurrent admission created the
namespace between the two calls. -/
def racingWebhook : webhook Unit :=
  { cfg := { KargoNamespace := "kargo" }
    validateSpecFn := validateSpec
    ensureNamespaceFn := fun _ _ s => (none, s)
    ensureSecretPermissionsFn := fun _ _ s => (none, s)
    getNamespaceFn := fun _ _ s =>
      (Except.error (Error.Status metav1.StatusReason.NotFound "not found"), s)
    createNamespaceFn := fun _ _ s =>
      (some (Error.Status metav1.StatusReason.AlreadyExists "already exists"), s)
    createRoleBindingFn := fun _ _ s => (none, s) }

/-- Sample project `team1` whose policy list repeats a stage name. -/
def exampleInvalidProject : kargoapi.Project :=
  { Name := "team1", UID := "uid-team1",
    Spec := some { PromotionPolicies := exampleDuplicatePolicies } }

/-- Sample webhook over a trivial world whose `ensureNamespaceFn` fails and whose
`ensureSecretPermissionsFn` would succeed. -/
def failingNamespaceWebhook : webhook Unit :=
  { cfg := { KargoNamespace := "kargo" }
    validateSpecFn := validateSpec
    ensureNamespaceFn := fun _ _ s => (some (Error.New "something went wrong"), s)
    ensureSecretPermissionsFn := fun _ _ s => (none, s)
    getNamespaceFn := fun _ _ s =>
      (Except.error (Error.Status metav1.StatusReason.NotFound "not found"), s)
    createNamespaceFn := fun _ _ s => (none, s)
    createRoleBindingFn := fun _ _ s => (none, s) }

/-! ## `ValidateUpdate` -/

/-- The method `ValidateUpdate`: the context and the old object are ignored; no collaborator
is called, so the world is handed back as it came. -/
def ValidateUpdate {σ : Type} (api : kargoapi.Constants) (w : webhook σ) (_ctx : Context)
    (_oldObj : kargoapi.Project) (newObj : kargoapi.Project) (s : σ) :
    (admission.Warnings × Option Error) × σ :=
  let project := newObj
  let errs := w.validateSpecFn (field.NewPath "spec") project.Spec
  if errs.length > 0 then
    (([], some (Error.Invalid (projectGroupKind api) project.Name errs)), s)
  else
    (([], none), s)

/-! ## The reconciler of Argo CD Applications (`internal/controller/applications`) -/

/-- Constants of packages `internal/controller` and `internal/kubeclient` whose declarations
are not among the sources: the shard label key and the name of the index field. -/
structure controller.Constants where
  ShardLabelKey : String
  StagesByArgoCDApplicationsIndexField : String
  deriving DecidableEq, Repr

/-- Modelled from the spec: `kargoapi.ArgoCDAppUpdate`, a named application reference; the code
reads `AppName` and calls `AppNamespaceOrDefault`. -/
structure kargoapi.ArgoCDAppUpdate where
  AppName : String
  AppNamespace : String
  deriving DecidableEq, Repr

/-- Modelled from the spec: `kargoapi.PromotionMechanisms`, reduced to its list of
application references. -/
structure kargoapi.PromotionMechanisms where
  ArgoCDAppUpdates : List kargoapi.ArgoCDAppUpdate
  deriving DecidableEq, Repr

/-- Modelled from the spec: `kargoapi.StageSpec`, with its optional (pointer) promotion
mechanisms. -/
structure kargoapi.StageSpec where
  PromotionMechanisms : Option kargoapi.PromotionMechanisms
  deriving DecidableEq, Repr

/-- Modelled from the spec: `kargoapi.Stage`; identity, labels and spec. -/
structure kargoapi.Stage where
  Namespace : String
  Name : String
  Labels : Option (List (String × String))
  Spec : kargoapi.StageSpec
  deriving DecidableEq, Repr

/-- Go map indexing with presence, `v, ok := m[k]`, on a `map[string]string`: `("", false)`
for a `nil` map or an absent key. -/
def mapLookup (m : Option (List (String × String))) (k : String) : String × Bool :=
  match m with
  | none => ("", false)
  | some l =>
    match l.lookup k with
    | some v => (v, true)
    | none => ("", false)

/-- The function `indexStagesByApp`. The method `AppNamespaceOrDefault` of an application
reference is declared in `api/v1alpha1`, outside the sources, and is a parameter. -/
def indexStagesByApp (consts : controller.Constants)
    (AppNamespaceOrDefault : kargoapi.ArgoCDAppUpdate → String) (shardName : String)
    (obj : kargoapi.Stage) : List String :=
  let r := mapLookup obj.Labels consts.ShardLabelKey
  let objShardName := r.1
  let labeled := r.2
  if (shardName == "" && labeled) || (shardName != "" && shardName != objShardName) then
    []
  else
    let stage := obj
    match stage.Spec.PromotionMechanisms with
    | none => []
    | some promotionMechanisms =>
      if promotionMechanisms.ArgoCDAppUpdates.length == 0 then
        []
      else
        promotionMechanisms.ArgoCDAppUpdates.map
          (fun appCheck => AppNamespaceOrDefault appCheck ++ ":" ++ appCheck.AppName)

/-- The selector `fields.OneTermEqualSelector(field, value)`. -/
structure fields.Selector where
  field : String
  value : String
  deriving DecidableEq, Repr

/-- The constructor `fields.OneTermEqualSelector`. -/
def fields.OneTermEqualSelector (k v : String) : fields.Selector :=
  { field := k, value := v }

/-- The `client.ListOptions`, reduced to the field selector. -/
structure client.ListOptions where
  FieldSelector : fields.Selector
  deriving DecidableEq, Repr

/-- The part of `client.Client` the reconciler itself calls: `List` of stages. -/
structure client.StageClient (σ : Type) where
  List : Context → client.ListOptions → σ → Except Error (List kargoapi.Stage) × σ

/-- The `reconciler` struct. -/
structure reconciler (σ : Type) where
  kubeClient : client.StageClient σ

/-- The constructor `newReconciler`. -/
def newReconciler {σ : Type} (kubeClient : client.StageClient σ) : reconciler σ :=
  { kubeClient := kubeClient }

/-- The `ctrl.Request`. -/
structure ctrl.Request where
  NamespacedName : types.NamespacedName
  deriving DecidableEq, Repr

/-- The `ctrl.Result`; `Reconcile` always returns the zero value. -/
structure ctrl.Result where
  Requeue : Bool
  RequeueAfter : Nat
  deriving DecidableEq, Repr

/-- The type of `kargoapi.RefreshStage`, declared in `api/v1alpha1` outside the sources and
taken as a parameter: given the client and the key of a stage it patches the refresh
annotation and reports an error or none (the returned stage is discarded by the caller). -/
abbrev RefreshStageFn (σ : Type) :=
  Context → client.StageClient σ → types.NamespacedName → σ → Option Error × σ

/-- The loop of `Reconcile` over the listed stages: every stage is refreshed; an error is
appended to `errs` and the loop continues. -/
def Reconcile.loop {σ : Type} (RefreshStage : RefreshStageFn σ) (r : reconciler σ)
    (ctx : Context) : List kargoapi.Stage → List Error → σ → List Error × σ
  | [], errs, s => (errs, s)
  | stage :: rest, errs, s =>
    let objKey : types.NamespacedName := { Namespace := stage.Namespace, Name := stage.Name }
    match RefreshStage ctx r.kubeClient objKey s with
    | (some err, s1) => Reconcile.loop RefreshStage r ctx rest (errs ++ [err]) s1
    | (none, s1) => Reconcile.loop RefreshStage r ctx rest errs s1

/-- The method `Reconcile`. -/
def Reconcile {σ : Type} (consts : controller.Constants) (RefreshStage : RefreshStageFn σ)
    (r : reconciler σ) (ctx : Context) (req : ctrl.Request) (s : σ) :
    (ctrl.Result × Option Error) × σ :=
  let result : ctrl.Result := { Requeue := false, RequeueAfter := 0 }
  match r.kubeClient.List ctx
      { FieldSelector := fields.OneTermEqualSelector
          consts.StagesByArgoCDApplicationsIndexField
          (req.NamespacedName.Namespace ++ ":" ++ req.NamespacedName.Name) } s with
  | (Except.error err, s1) =>
    ((result, some (Error.Wrap err
      ("error listing Stages for Application " ++ quote req.NamespacedName.Name ++
        " in namespace " ++ quote req.NamespacedName.Namespace))), s1)
  | (Except.ok stages, s1) =>
    match Reconcile.loop RefreshStage r ctx stages [] s1 with
    | (errs, s2) =>
      match errs with
      | err :: _ => ((result, some err), s2)
      | [] => ((result, none), s2)

/-! ## Observation of the calls of the reconciler -/

/-- One call of the reconciler to its collaborators. -/
inductive ReconcileCall where
  | list (opts : client.ListOptions)
  | refresh (objKey : types.NamespacedName)
  deriving DecidableEq, Repr

/-- The same reconciler over a world that also carries the list of calls made so far. -/
def reconciler.recording {σ : Type} (r : reconciler σ) : reconciler (σ × List ReconcileCall) :=
  { kubeClient :=
      { List := fun ctx opts st =>
          ((r.kubeClient.List ctx opts st.1).1,
            ((r.kubeClient.List ctx opts st.1).2, st.2 ++ [ReconcileCall.list opts])) } }

/-- The same refresh function over a world that also carries the list of calls made so far:
it acts through the client of `r` as before and appends its own call. -/
def recordingRefresh {σ : Type} (RefreshStage : RefreshStageFn σ) (r : reconciler σ) :
    RefreshStageFn (σ × List ReconcileCall) :=
  fun ctx _ objKey st =>
    ((RefreshStage ctx r.kubeClient objKey st.1).1,
      ((RefreshStage ctx r.kubeClient objKey st.1).2, st.2 ++ [ReconcileCall.refresh objKey]))

/-- The key of a stage, as `Reconcile` builds it. -/
def stageKey (stage : kargoapi.Stage) : types.NamespacedName :=
  { Namespace := stage.Namespace, Name := stage.Name }

/-- The outcomes of the refresh patches of a run over the listed stages, in list order, each
patch acting on the world the previous one left. -/
def refreshOutcomes {σ : Type} (RefreshStage : RefreshStageFn σ) (r : reconciler σ)
    (ctx : Context) : List kargoapi.Stage → σ → List (Option Error)
  | [], _ => []
  | stage :: rest, s =>
    (RefreshStage ctx r.kubeClient (stageKey stage) s).1 ::
      refreshOutcomes RefreshStage r ctx rest (RefreshStage ctx r.kubeClient (stageKey stage) s).2

/-- The world after the refresh patches of a run over the listed stages. -/
def refreshWorld {σ : Type} (RefreshStage : RefreshStageFn σ) (r : reconciler σ)
    (ctx : Context) : List kargoapi.Stage → σ → σ
  | [], s => s
  | stage :: rest, s =>
    refreshWorld RefreshStage r ctx rest (RefreshStage ctx r.kubeClient (stageKey stage) s).2

/-- The shard match as the specification words it: the default instance (empty shard name)
with a stage that carries no shard label, or a named shard with a stage whose shard label
equals the name. -/
def shardMatches (consts : controller.Constants) (shardName : String)
    (stage : kargoapi.Stage) : Prop :=
  (shardName = "" ∧ ¬ ∃ l v, stage.Labels = some l ∧ l.lookup consts.ShardLabelKey = some v) ∨
  (shardName ≠ "" ∧ ∃ l, stage.Labels = some l ∧ l.lookup consts.ShardLabelKey = some shardName)

/-- Sample constants of the controller packages. -/
def exampleControllerConstants : controller.Constants :=
  { ShardLabelKey := "kargo.akuity.io/shard"
    StagesByArgoCDApplicationsIndexField := "applications" }

/-- Sample namespace defaulting of an application reference: `argocd` when none is given. -/
def exampleAppNamespaceOrDefault (a : kargoapi.ArgoCDAppUpdate) : String :=
  if a.AppNamespace == "" then "argocd" else a.AppNamespace

/-- Sample stage `stage1`, unlabelled, referencing application `ns1:app1`. -/
def exampleStage1 : kargoapi.Stage :=
  { Namespace := "team1"
    Name := "stage1"
    Labels := none
    Spec := ⟨some ⟨[{ AppName := "app1", AppNamespace := "ns1" }]⟩⟩ }

/-- Sample stage `stage2`, unlabelled, referencing applications `ns1:app1` and
`argocd:app2` (the latter by default namespace). -/
def exampleStage2 : kargoapi.Stage :=
  { Namespace := "team1"
    Name := "stage2"
    Labels := none
    Spec := ⟨some ⟨[{ AppName := "app1", AppNamespace := "ns1" },
                    { AppName := "app2", AppNamespace := "" }]⟩⟩ }

/-- Sample client over the world of refreshed stage names: every query lists `stage1` and
`stage2`. -/
def exampleStageClient : client.StageClient (List String) :=
  { List := fun _ _ s => (Except.ok [exampleStage1, exampleStage2], s) }

/-- Sample refresh over the world of refreshed stage names: the patch of `stage2` fails, any
other patch succeeds and records the name of the stage. -/
def exampleRefreshStage : RefreshStageFn (List String) :=
  fun _ _ objKey s =>
    if objKey.Name == "stage2" then (some (Error.New "patch of stage2 failed"), s)
    else (none, s ++ [objKey.Name])

/-- Sample request: the application `app1` of namespace `ns1` changed. -/
def exampleRequest : ctrl.Request :=
  { NamespacedName := { Namespace := "ns1", Name := "app1" } }

/-! # Theorems -/

/-! ## Promotion-policy validation -/

theorem stageNamesOf_cons (p : kargoapi.PromotionPolicy) (l : List kargoapi.PromotionPolicy) :
    stageNamesOf (p :: l) = p.Stage :: stageNamesOf l := rfl

theorem stageNamesOf_append (a b : List kargoapi.PromotionPolicy) :
    stageNamesOf (a ++ b) = stageNamesOf a ++ stageNamesOf b := by
  simp [stageNamesOf]

theorem stageNamesOf_getElem? (l : List kargoapi.PromotionPolicy) (i : Nat) :
    (stageNamesOf l)[i]? = (l[i]?).map (fun p => p.Stage) := by
  simp [stageNamesOf]

/-- The loop reports nothing when the remaining stage names are pairwise distinct and none
of them has been seen. -/
theorem loop_eq_nil (f : field.Path) (all : List kargoapi.PromotionPolicy) :
    ∀ (rest : List kargoapi.PromotionPolicy) (seen : List String),
      (stageNamesOf rest).Nodup → (∀ x ∈ stageNamesOf rest, x ∉ seen) →
      validatePromotionPolicies.loop f all rest seen = [] := by
  intro rest
  induction rest with
  | nil => intro seen _ _; rfl
  | cons p rest ih =>
    intro seen hnd hseen
    rw [stageNamesOf_cons, List.nodup_cons] at hnd
    have hp : p.Stage ∉ seen := hseen p.Stage (by simp [stageNamesOf_cons])
    simp only [validatePromotionPolicies.loop, hp, if_false]
    apply ih _ hnd.2
    intro x hx hmem
    rcases List.mem_cons.mp hmem with h | h
    · exact hnd.1 (h ▸ hx)
    · exact hseen x (by simp [stageNamesOf_cons, hx]) h

/-- The loop stops at the first policy whose stage name was seen before, with one error that
names that stage. -/
theorem loop_first_duplicate (f : field.Path) (all : List kargoapi.PromotionPolicy) :
    ∀ (a : List kargoapi.PromotionPolicy) (q : kargoapi.PromotionPolicy)
      (b : List kargoapi.PromotionPolicy) (seen : List String),
      (stageNamesOf a).Nodup → (∀ x ∈ stageNamesOf a, x ∉ seen) →
      (q.Stage ∈ seen ∨ q.Stage ∈ stageNamesOf a) →
      validatePromotionPolicies.loop f all (a ++ q :: b) seen =
        [field.Invalid f all ("multiple " ++ f.String ++ " reference stage " ++ q.Stage)] := by
  intro a
  induction a with
  | nil =>
    intro q b seen _ _ hq
    have hq' : q.Stage ∈ seen := by
      rcases hq with h | h
      · exact h
      · simp [stageNamesOf] at h
    simp [validatePromotionPolicies.loop, hq']
  | cons p a ih =>
    intro q b seen hnd hseen hq
    rw [stageNamesOf_cons, List.nodup_cons] at hnd
    have hp : p.Stage ∉ seen := hseen p.Stage (by simp [stageNamesOf_cons])
    simp only [List.cons_append, validatePromotionPolicies.loop, hp, if_false]
    apply ih q b _ hnd.2
    · intro x hx hmem
      rcases List.mem_cons.mp hmem with h | h
      · exact hnd.1 (h ▸ hx)
      · exact hseen x (by simp [stageNamesOf_cons, hx]) h
    · rcases hq with h | h
      · exact Or.inl (List.mem_cons_of_mem _ h)
      · rw [stageNamesOf_cons] at h
        rcases List.mem_cons.mp h with h1 | h1
        · exact Or.inl (by simp [h1])
        · exact Or.inr h1

/-- A list with a repeated stage name splits at its first repeat: a repeat-free front, the
repeating policy, and the rest. -/
theorem exists_first_duplicate (l : List kargoapi.PromotionPolicy) :
    ¬ (stageNamesOf l).Nodup →
    ∃ a q b, l = a ++ q :: b ∧ (stageNamesOf a).Nodup ∧ q.Stage ∈ stageNamesOf a := by
  induction l using List.reverseRecOn with
  | nil => intro h; exact absurd List.nodup_nil h
  | append_singleton t x ih =>
    intro h
    by_cases ht : (stageNamesOf t).Nodup
    · refine ⟨t, x, [], rfl, ht, ?_⟩
      by_contra hx
      apply h
      rw [stageNamesOf_append, List.nodup_append]
      refine ⟨ht, by simp [stageNamesOf], ?_⟩
      intro y hy hy'
      simp [stageNamesOf] at hy'
      exact hx (hy' ▸ hy)
    · obtain ⟨a, q, b, rfl, ha, hq⟩ := ih ht
      exact ⟨a, q, b ++ [x], by simp, ha, hq⟩

/-- A repeated stage name, stated on positions, is a failure of `Nodup`. -/
theorem not_nodup_iff_positions (l : List kargoapi.PromotionPolicy) :
    ¬ (stageNamesOf l).Nodup ↔
      ∃ i j, i < j ∧ j < l.length ∧
        (l[i]?).map (fun p => p.Stage) = (l[j]?).map (fun p => p.Stage) := by
  rw [List.nodup_iff_getElem?_ne_getElem?]
  simp only [stageNamesOf_getElem?, not_forall, ne_eq, not_not, exists_prop]
  simp [stageNamesOf]

/-- C1: `validatePromotionPolicies` returns a non-empty error list if and only if two
entries at different positions of the list have the same stage name; in particular
`[a, a]` is rejected and `[a, b]` yields no error. -/
theorem validatePromotionPolicies_errors_iff_duplicate (f : field.Path)
    (promotionPolicies : List kargoapi.PromotionPolicy) :
    (validatePromotionPolicies f promotionPolicies ≠ [] ↔
      ∃ i j, i < j ∧ j < promotionPolicies.length ∧
        (promotionPolicies[i]?).map (fun p => p.Stage) =
          (promotionPolicies[j]?).map (fun p => p.Stage)) ∧
    validatePromotionPolicies f [{ Stage := "a" }, { Stage := "a" }] ≠ [] ∧
    validatePromotionPolicies f [{ Stage := "a" }, { Stage := "b" }] = [] := by
  refine ⟨?_, ?_, ?_⟩
  · rw [← not_nodup_iff_positions]
    constructor
    · intro h hnd
      exact h (loop_eq_nil f promotionPolicies promotionPolicies [] hnd (by simp))
    · intro h
      obtain ⟨a, q, b, hl, ha, hq⟩ := exists_first_duplicate promotionPolicies h
      have := loop_first_duplicate f promotionPolicies a q b [] ha (by simp) (Or.inr hq)
      rw [← hl] at this
      simp [validatePromotionPolicies, this]
  · simp [validatePromotionPolicies, validatePromotionPolicies.loop]
  · simp [validatePromotionPolicies, validatePromotionPolicies.loop]

/-- C2: on a list with a repeated stage name `validatePromotionPolicies` stops at the first
repeat: it returns exactly one field error, whose message is
"multiple <field path> reference stage <name>" and whose `<name>` is the stage of the
lowest-index entry whose stage name already occurs at a smaller index. -/
theorem validatePromotionPolicies_first_duplicate (f : field.Path)
    (promotionPolicies : List kargoapi.PromotionPolicy)
    (hdup : ∃ i j, i < j ∧ j < promotionPolicies.length ∧
      (promotionPolicies[i]?).map (fun p => p.Stage) =
        (promotionPolicies[j]?).map (fun p => p.Stage)) :
    ∃ (j : Nat) (q : kargoapi.PromotionPolicy), promotionPolicies[j]? = some q ∧
      (∃ i, i < j ∧ (promotionPolicies[i]?).map (fun p => p.Stage) = some q.Stage) ∧
      (∀ i k, i < k → k < j →
        (promotionPolicies[i]?).map (fun p => p.Stage) ≠
          (promotionPolicies[k]?).map (fun p => p.Stage)) ∧
      validatePromotionPolicies f promotionPolicies =
        [field.Invalid f promotionPolicies
          ("multiple " ++ f.String ++ " reference stage " ++ q.Stage)] ∧
      (validatePromotionPolicies f promotionPolicies).length = 1 := by
  have hnd := (not_nodup_iff_positions promotionPolicies).mpr hdup
  obtain ⟨a, q, b, hl, ha, hq⟩ := exists_first_duplicate promotionPolicies hnd
  have hres := loop_first_duplicate f promotionPolicies a q b [] ha (by simp) (Or.inr hq)
  rw [← hl] at hres
  have hfront : ∀ k, k < a.length → promotionPolicies[k]? = a[k]? := by
    intro k hk
    rw [hl, List.getElem?_append_left hk]
  refine ⟨a.length, q, ?_, ?_, ?_, ?_, ?_⟩
  · rw [hl, List.getElem?_append_right (le_refl _)]; simp
  · obtain ⟨i, hi, hiq⟩ := List.getElem_of_mem hq
    have hi' : i < a.length := by simpa [stageNamesOf] using hi
    refine ⟨i, hi', ?_⟩
    rw [hfront i hi', ← stageNamesOf_getElem?, List.getElem?_eq_getElem hi, hiq]
  · intro i k hik hk
    rw [hfront i (lt_trans hik hk), hfront k hk, ← stageNamesOf_getElem?,
      ← stageNamesOf_getElem?]
    exact List.nodup_iff_getElem?_ne_getElem?.mp ha i k hik (by simpa [stageNamesOf] using hk)
  · exact hres
  · simp [validatePromotionPolicies, hres]

/-- C2 at the list `[a, b, a, b]` under the path `spec.promotionPolicies`. -/
theorem validatePromotionPolicies_first_duplicate_witness :
    (∃ i j, i < j ∧ j < exampleDuplicatePolicies.length ∧
      (exampleDuplicatePolicies[i]?).map (fun p => p.Stage) =
        (exampleDuplicatePolicies[j]?).map (fun p => p.Stage)) ∧
    ∃ (j : Nat) (q : kargoapi.PromotionPolicy), exampleDuplicatePolicies[j]? = some q ∧
      (∃ i, i < j ∧ (exampleDuplicatePolicies[i]?).map (fun p => p.Stage) = some q.Stage) ∧
      (∀ i k, i < k → k < j →
        (exampleDuplicatePolicies[i]?).map (fun p => p.Stage) ≠
          (exampleDuplicatePolicies[k]?).map (fun p => p.Stage)) ∧
      validatePromotionPolicies ((field.NewPath "spec").Child "promotionPolicies")
          exampleDuplicatePolicies =
        [field.Invalid ((field.NewPath "spec").Child "promotionPolicies")
          exampleDuplicatePolicies
          ("multiple " ++ ((field.NewPath "spec").Child "promotionPolicies").String ++
            " reference stage " ++ q.Stage)] ∧
      (validatePromotionPolicies ((field.NewPath "spec").Child "promotionPolicies")
        exampleDuplicatePolicies).length = 1 :=
  ⟨⟨0, 2, by decide, by decide, rfl⟩,
    validatePromotionPolicies_first_duplicate
      ((field.NewPath "spec").Child "promotionPolicies") exampleDuplicatePolicies
      ⟨0, 2, by decide, by decide, rfl⟩⟩

/-! ## `ensureNamespace` -/

/-- The ownership test of the code agrees with the conflict as worded, the true value being a
non-empty string. -/
theorem namespaceConflict_iff (api : kargoapi.Constants) (ns : corev1.Namespace)
    (project : kargoapi.Project) (htrue : api.LabelTrueValue ≠ "") :
    namespaceConflict api ns project = true ↔ ownershipConflict api ns project := by
  obtain ⟨name, labels, owners, fins⟩ := ns
  unfold namespaceConflict ownershipConflict
  rcases owners with _ | ⟨o, _ | ⟨o2, rest⟩⟩
  · cases labels with
    | none => simp
    | some l =>
      cases hl : l.lookup api.ProjectLabelKey with
      | none => simp [mapIndex, hl, Ne.symm htrue]
      | some v => simp [mapIndex, hl]
  · simp
  · simp

/-- The run of `ensureNamespace` when the lookup finds a namespace. -/
theorem ensureNamespace_of_found {σ : Type} (api : kargoapi.Constants) (w : webhook σ)
    (ctx : Context) (project : kargoapi.Project) (s s1 : σ) (ns : corev1.Namespace)
    (hget : w.getNamespaceFn ctx { Namespace := "", Name := project.Name } s =
      (Except.ok ns, s1)) :
    ensureNamespace api w ctx project s =
      (if namespaceConflict api ns project then
        some (Error.Conflict (projectGroupResource api) project.Name
          (Error.New ("failed to initialize Project " ++ quote project.Name ++
            " because namespace " ++ quote project.Name ++ " already exists")))
       else none, s1) := by
  unfold ensureNamespace
  rw [hget]
  by_cases h : namespaceConflict api ns project = true <;> simp [h]

/-- The run of `ensureNamespace` when the lookup reports not-found. -/
theorem ensureNamespace_of_notFound {σ : Type} (api : kargoapi.Constants) (w : webhook σ)
    (ctx : Context) (project : kargoapi.Project) (s s1 : σ) (err : Error)
    (hget : w.getNamespaceFn ctx { Namespace := "", Name := project.Name } s =
      (Except.error err, s1))
    (hnf : apierrors.IsNotFound err = true) :
    ensureNamespace api w ctx project s =
      ((match (w.createNamespaceFn ctx (projectNamespace api project) s1).1 with
        | some e => some (Error.InternalError
            (Error.Wrap e ("error creating namespace " ++ quote project.Name)))
        | none => none),
       (w.createNamespaceFn ctx (projectNamespace api project) s1).2) := by
  unfold ensureNamespace
  rw [hget]
  have hns : controllerutil.AddFinalizer
      { Name := project.Name, Labels := some [(api.ProjectLabelKey, api.LabelTrueValue)],
        OwnerReferences := [], Finalizers := [] } api.FinalizerName =
      projectNamespace api project := by
    simp [controllerutil.AddFinalizer, projectNamespace]
  simp only [hnf, Bool.not_true, Bool.false_eq_true, if_false, hns]
  rcases hc : w.createNamespaceFn ctx (projectNamespace api project) s1 with ⟨_ | e, s2⟩ <;> simp

/-- C3: when the lookup returns an existing namespace, `ensureNamespace` returns a conflict
error if and only if the namespace has no owner and lacks the project-owned label (key absent
or value not the true value), or has more than one owner, or has exactly one owner whose UID
differs from the UID of the project; otherwise it returns success; in both cases only the
lookup is invoked, never the creation of a namespace, and the world is the one the lookup
left. The true value of the label is a non-empty string. -/
theorem ensureNamespace_found_conflict_iff {σ : Type} (api : kargoapi.Constants)
    (w : webhook σ) (ctx : Context) (project : kargoapi.Project) (s s1 : σ)
    (ns : corev1.Namespace) (htrue : api.LabelTrueValue ≠ "")
    (hget : w.getNamespaceFn ctx { Namespace := "", Name := project.Name } s =
      (Except.ok ns, s1)) :
    ((∃ e, (ensureNamespace api w ctx project s).1 = some e ∧ apierrors.IsConflict e = true) ↔
      ownershipConflict api ns project) ∧
    (ownershipConflict api ns project →
      (ensureNamespace api w ctx project s).1 =
        some (Error.Conflict (projectGroupResource api) project.Name
          (Error.New ("failed to initialize Project " ++ quote project.Name ++
            " because namespace " ++ quote project.Name ++ " already exists")))) ∧
    (¬ ownershipConflict api ns project → (ensureNamespace api w ctx project s).1 = none) ∧
    (ensureNamespace api w ctx project s).2 = s1 ∧
    (ensureNamespace api w.recording ctx project (s, [])).2.2 =
      [Call.getNamespace { Namespace := "", Name := project.Name }] := by
  have hrec : w.recording.getNamespaceFn ctx { Namespace := "", Name := project.Name } (s, []) =
      (Except.ok ns, (s1, [Call.getNamespace { Namespace := "", Name := project.Name }])) := by
    simp [webhook.recording, hget]
  rw [ensureNamespace_of_found api w ctx project s s1 ns hget,
    ensureNamespace_of_found api w.recording ctx project _ _ ns hrec]
  have hiff := namespaceConflict_iff api ns project htrue
  by_cases hc : ownershipConflict api ns project
  · have hb : namespaceConflict api ns project = true := hiff.mpr hc
    simp [hb, hc, apierrors.IsConflict, apierrors.ReasonForError]
  · have hb : namespaceConflict api ns project = false := by
      cases h : namespaceConflict api ns project with
      | false => rfl
      | true => exact absurd (hiff.mp h) hc
    simp [hb, hc]

/-- C3 at the store that holds a foreign, unlabelled namespace `team1`: admission of project
`team1` is answered by a conflict and nothing is created. -/
theorem ensureNamespace_found_conflict_iff_witness :
    exampleConstants.LabelTrueValue ≠ "" ∧
    storeWebhook.getNamespaceFn liveContext { Namespace := "", Name := exampleProject.Name }
        foreignStore = (Except.ok foreignNamespace, foreignStore) ∧
    ((∃ e, (ensureNamespace exampleConstants storeWebhook liveContext exampleProject
        foreignStore).1 = some e ∧ apierrors.IsConflict e = true) ↔
      ownershipConflict exampleConstants foreignNamespace exampleProject) ∧
    (ownershipConflict exampleConstants foreignNamespace exampleProject →
      (ensureNamespace exampleConstants storeWebhook liveContext exampleProject
        foreignStore).1 =
        some (Error.Conflict (projectGroupResource exampleConstants) exampleProject.Name
          (Error.New ("failed to initialize Project " ++ quote exampleProject.Name ++
            " because namespace " ++ quote exampleProject.Name ++ " already exists")))) ∧
    (¬ ownershipConflict exampleConstants foreignNamespace exampleProject →
      (ensureNamespace exampleConstants storeWebhook liveContext exampleProject
        foreignStore).1 = none) ∧
    (ensureNamespace exampleConstants storeWebhook liveContext exampleProject
      foreignStore).2 = foreignStore ∧
    (ensureNamespace exampleConstants storeWebhook.recording liveContext exampleProject
      (foreignStore, [])).2.2 =
      [Call.getNamespace { Namespace := "", Name := exampleProject.Name }] :=
  ⟨by decide, rfl,
    ensureNamespace_found_conflict_iff exampleConstants storeWebhook liveContext
      exampleProject foreignStore foreignStore foreignNamespace (by decide) rfl⟩

/-- C4: when the lookup reports not-found, `ensureNamespace` invokes the creation exactly
once, after the lookup, with a namespace named like the project that carries the
project-owned label with the true value, has the deletion finalizer attached and has no owner
references; it returns success when that creation succeeds. -/
theorem ensureNamespace_notFound_creates {σ : Type} (api : kargoapi.Constants)
    (w : webhook σ) (ctx : Context) (project : kargoapi.Project) (s s1 : σ) (err : Error)
    (hget : w.getNamespaceFn ctx { Namespace := "", Name := project.Name } s =
      (Except.error err, s1))
    (hnf : apierrors.IsNotFound err = true) :
    (ensureNamespace api w.recording ctx project (s, [])).2.2 =
      [Call.getNamespace { Namespace := "", Name := project.Name },
       Call.createNamespace (projectNamespace api project)] ∧
    (projectNamespace api project).Name = project.Name ∧
    (∃ l, (projectNamespace api project).Labels = some l ∧
      l.lookup api.ProjectLabelKey = some api.LabelTrueValue) ∧
    api.FinalizerName ∈ (projectNamespace api project).Finalizers ∧
    (projectNamespace api project).OwnerReferences = [] ∧
    (ensureNamespace api w ctx project s).2 =
      (w.createNamespaceFn ctx (projectNamespace api project) s1).2 ∧
    ((w.createNamespaceFn ctx (projectNamespace api project) s1).1 = none →
      (ensureNamespace api w ctx project s).1 = none) := by
  have hrec : w.recording.getNamespaceFn ctx { Namespace := "", Name := project.Name } (s, []) =
      (Except.error err,
        (s1, [Call.getNamespace { Namespace := "", Name := project.Name }])) := by
    simp [webhook.recording, hget]
  rw [ensureNamespace_of_notFound api w ctx project s s1 err hget hnf,
    ensureNamespace_of_notFound api w.recording ctx project _ _ err hrec hnf]
  refine ⟨by simp [webhook.recording], rfl, ⟨_, rfl, by simp [List.lookup]⟩,
    by simp [projectNamespace], rfl, rfl, ?_⟩
  intro h
  simp [h]

/-- C4 at the empty store: admission of project `team1` creates the namespace `team1`. -/
theorem ensureNamespace_notFound_creates_witness :
    storeWebhook.getNamespaceFn liveContext { Namespace := "", Name := exampleProject.Name }
        emptyStore =
      (Except.error (Error.Status metav1.StatusReason.NotFound
        ("namespaces " ++ quote exampleProject.Name ++ " not found")), emptyStore) ∧
    apierrors.IsNotFound (Error.Status metav1.StatusReason.NotFound
      ("namespaces " ++ quote exampleProject.Name ++ " not found")) = true ∧
    (ensureNamespace exampleConstants storeWebhook.recording liveContext exampleProject
      (emptyStore, [])).2.2 =
      [Call.getNamespace { Namespace := "", Name := exampleProject.Name },
       Call.createNamespace (projectNamespace exampleConstants exampleProject)] ∧
    (projectNamespace exampleConstants exampleProject).Name = exampleProject.Name ∧
    (∃ l, (projectNamespace exampleConstants exampleProject).Labels = some l ∧
      l.lookup exampleConstants.ProjectLabelKey = some exampleConstants.LabelTrueValue) ∧
    exampleConstants.FinalizerName ∈
      (projectNamespace exampleConstants exampleProject).Finalizers ∧
    (projectNamespace exampleConstants exampleProject).OwnerReferences = [] ∧
    (ensureNamespace exampleConstants storeWebhook liveContext exampleProject emptyStore).2 =
      (storeWebhook.createNamespaceFn liveContext
        (projectNamespace exampleConstants exampleProject) emptyStore).2 ∧
    ((storeWebhook.createNamespaceFn liveContext
        (projectNamespace exampleConstants exampleProject) emptyStore).1 = none →
      (ensureNamespace exampleConstants storeWebhook liveContext exampleProject
        emptyStore).1 = none) :=
  ⟨rfl, rfl,
    ensureNamespace_notFound_creates exampleConstants storeWebhook liveContext exampleProject
      emptyStore emptyStore _ rfl rfl⟩

/-- C5 (evaluation of the code): the lookup reports not-found, the creation then reports
already-exists, and `ensureNamespace` returns an internal error instead of success. -/
theorem ensureNamespace_alreadyExists_is_error :
    (∃ e, (racingWebhook.getNamespaceFn liveContext
        { Namespace := "", Name := exampleProject.Name } ()).1 = Except.error e ∧
      apierrors.IsNotFound e = true) ∧
    (∃ e, (racingWebhook.createNamespaceFn liveContext
        (projectNamespace exampleConstants exampleProject) ()).1 = some e ∧
      apierrors.IsAlreadyExists e = true) ∧
    ensureNamespace exampleConstants racingWebhook liveContext exampleProject () =
      (some (Error.InternalError
        (Error.Wrap (Error.Status metav1.StatusReason.AlreadyExists "already exists")
          ("error creating namespace " ++ quote "team1"))), ()) ∧
    (ensureNamespace exampleConstants racingWebhook liveContext exampleProject ()).1 ≠ none :=
  ⟨⟨_, rfl, rfl⟩, ⟨_, rfl, rfl⟩, rfl, by
    rw [show ensureNamespace exampleConstants racingWebhook liveContext exampleProject () =
      (some (Error.InternalError
        (Error.Wrap (Error.Status metav1.StatusReason.AlreadyExists "already exists")
          ("error creating namespace " ++ quote "team1"))), ()) from rfl]
    exact Option.some_ne_none _⟩

/-! ## `ensureSecretPermissions` -/

/-- The body of `ensureSecretPermissions`, with the role binding it builds named. -/
theorem ensureSecretPermissions_unfold {σ : Type} (w : webhook σ) (ctx : Context)
    (project : kargoapi.Project) (s : σ) :
    ensureSecretPermissions w ctx project s =
      match w.createRoleBindingFn ctx (secretsRoleBinding w.cfg.KargoNamespace project) s with
      | (some err, s1) =>
        if apierrors.IsAlreadyExists err then (none, s1)
        else
          (some (Error.InternalError
            (Error.Wrap err ("error creating role binding " ++
              quote "kargo-api-server-manage-project-secrets" ++
              " in project namespace " ++ quote project.Name))), s1)
      | (none, s1) => (none, s1) := rfl

/-- C6: `ensureSecretPermissions` attempts the creation of exactly one role binding, named
`kargo-api-server-manage-project-secrets`, in the namespace named like the project, for role
`kargo-secret-manager` and the service account `kargo-api` of the configured Kargo
namespace; it returns success if and only if the creation succeeds or fails with
already-exists, and every other creation failure is returned as an error. -/
theorem ensureSecretPermissions_creates_once {σ : Type} (w : webhook σ) (ctx : Context)
    (project : kargoapi.Project) (s : σ) :
    (ensureSecretPermissions w.recording ctx project (s, [])).2.2 =
      [Call.createRoleBinding (secretsRoleBinding w.cfg.KargoNamespace project)] ∧
    (ensureSecretPermissions w ctx project s).2 =
      (w.createRoleBindingFn ctx (secretsRoleBinding w.cfg.KargoNamespace project) s).2 ∧
    ((ensureSecretPermissions w ctx project s).1 = none ↔
      ((w.createRoleBindingFn ctx (secretsRoleBinding w.cfg.KargoNamespace project) s).1 = none ∨
        ∃ e, (w.createRoleBindingFn ctx
            (secretsRoleBinding w.cfg.KargoNamespace project) s).1 = some e ∧
          apierrors.IsAlreadyExists e = true)) ∧
    (∀ e, (w.createRoleBindingFn ctx
        (secretsRoleBinding w.cfg.KargoNamespace project) s).1 = some e →
      apierrors.IsAlreadyExists e = false →
      (ensureSecretPermissions w ctx project s).1 =
        some (Error.InternalError
          (Error.Wrap e ("error creating role binding " ++
            quote "kargo-api-server-manage-project-secrets" ++
            " in project namespace " ++ quote project.Name)))) := by
  have hcfg : w.recording.cfg = w.cfg := rfl
  rw [ensureSecretPermissions_unfold, ensureSecretPermissions_unfold, hcfg]
  have hrec : w.recording.createRoleBindingFn ctx
      (secretsRoleBinding w.cfg.KargoNamespace project) (s, []) =
      ((w.createRoleBindingFn ctx (secretsRoleBinding w.cfg.KargoNamespace project) s).1,
        ((w.createRoleBindingFn ctx (secretsRoleBinding w.cfg.KargoNamespace project) s).2,
          [Call.createRoleBinding (secretsRoleBinding w.cfg.KargoNamespace project)])) := by
    simp [webhook.recording]
  rw [hrec]
  rcases hc : w.createRoleBindingFn ctx (secretsRoleBinding w.cfg.KargoNamespace project) s
    with ⟨_ | e, s1⟩
  · simp
  · by_cases he : apierrors.IsAlreadyExists e = true
    · simp [he]
    · simp [he, roleBindingName]

/-! ## `ValidateCreate` -/

/-- The run of `ValidateCreate` on a spec that validates, with an admission request in the
context. -/
theorem ValidateCreate_of_valid {σ : Type} (api : kargoapi.Constants) (w : webhook σ)
    (ctx : Context) (project : kargoapi.Project) (s : σ) (req : admission.Request)
    (hvalid : w.validateSpecFn (field.NewPath "spec") project.Spec = [])
    (hreq : ctx.request = some req) :
    ValidateCreate api w ctx project s =
      if req.DryRun = some true then (([], none), s)
      else
        match w.ensureNamespaceFn ctx project s with
        | (some err, s1) => (([], some err), s1)
        | (none, s1) =>
          (([], (w.ensureSecretPermissionsFn ctx project s1).1),
            (w.ensureSecretPermissionsFn ctx project s1).2) := by
  unfold ValidateCreate
  simp [hvalid, admission.RequestFromContext, hreq]

/-- C8: when spec validation returns at least one error, `ValidateCreate` returns an
invalid-resource error carrying those errors and invokes neither `ensureNamespaceFn` nor
`ensureSecretPermissionsFn` (no call at all, world unchanged), whatever the context holds. -/
theorem ValidateCreate_invalid_rejects {σ : Type} (api : kargoapi.Constants) (w : webhook σ)
    (ctx : Context) (project : kargoapi.Project) (s : σ)
    (hinv : (w.validateSpecFn (field.NewPath "spec") project.Spec).length > 0) :
    ValidateCreate api w ctx project s =
      (([], some (Error.Invalid (projectGroupKind api) project.Name
        (w.validateSpecFn (field.NewPath "spec") project.Spec))), s) ∧
    apierrors.IsInvalid (Error.Invalid (projectGroupKind api) project.Name
      (w.validateSpecFn (field.NewPath "spec") project.Spec)) = true ∧
    (ValidateCreate api w.recording ctx project (s, [])).2 = (s, []) := by
  have hrec : w.recording.validateSpecFn = w.validateSpecFn := rfl
  refine ⟨?_, rfl, ?_⟩
  · unfold ValidateCreate
    simp [hinv]
  · unfold ValidateCreate
    simp [hrec, hinv]

/-- C8 at the project `team1` with policies `[a, b, a, b]`, on the empty store. -/
theorem ValidateCreate_invalid_rejects_witness :
    (storeWebhook.validateSpecFn (field.NewPath "spec") exampleInvalidProject.Spec).length > 0 ∧
    ValidateCreate exampleConstants storeWebhook liveContext exampleInvalidProject emptyStore =
      (([], some (Error.Invalid (projectGroupKind exampleConstants) exampleInvalidProject.Name
        (storeWebhook.validateSpecFn (field.NewPath "spec") exampleInvalidProject.Spec))),
        emptyStore) ∧
    apierrors.IsInvalid (Error.Invalid (projectGroupKind exampleConstants)
      exampleInvalidProject.Name
      (storeWebhook.validateSpecFn (field.NewPath "spec") exampleInvalidProject.Spec)) = true ∧
    (ValidateCreate exampleConstants storeWebhook.recording liveContext exampleInvalidProject
      (emptyStore, [])).2 = (emptyStore, []) :=
  ⟨by decide,
    ValidateCreate_invalid_rejects exampleConstants storeWebhook liveContext
      exampleInvalidProject emptyStore (by decide)⟩

/-- The calls `ValidateCreate` makes on a spec that validates, in a request that is not a dry
run: `ensureNamespaceFn`, and `ensureSecretPermissionsFn` after it when it succeeded. -/
theorem ValidateCreate_recording_of_live {σ : Type} (api : kargoapi.Constants)
    (w : webhook σ) (ctx : Context) (project : kargoapi.Project) (s : σ)
    (req : admission.Request)
    (hvalid : w.validateSpecFn (field.NewPath "spec") project.Spec = [])
    (hreq : ctx.request = some req) (hlive : req.DryRun ≠ some true) :
    (ValidateCreate api w.recording ctx project (s, [])).2.2 =
      match (w.ensureNamespaceFn ctx project s).1 with
      | some _ => [Call.ensureNamespace project]
      | none => [Call.ensureNamespace project, Call.ensureSecretPermissions project] := by
  have hvalid2 : w.recording.validateSpecFn (field.NewPath "spec") project.Spec = [] := hvalid
  rw [ValidateCreate_of_valid api w.recording ctx project (s, []) req hvalid2 hreq]
  simp only [hlive, if_false]
  rcases hn : w.ensureNamespaceFn ctx project s with ⟨_ | e, s1⟩ <;>
    simp [webhook.recording, hn]

/-- C9 (as stated, refuted): with a valid spec and a request that is not a dry run, a failing
`ensureNamespaceFn` is the only call made; `ensureSecretPermissionsFn` is not invoked. -/
theorem ValidateCreate_failed_namespace_only_call :
    failingNamespaceWebhook.validateSpecFn (field.NewPath "spec") exampleProject.Spec = [] ∧
    liveContext.request = some { DryRun := none } ∧
    (ValidateCreate exampleConstants failingNamespaceWebhook.recording liveContext
      exampleProject ((), [])).2.2 = [Call.ensureNamespace exampleProject] ∧
    ¬ ((ValidateCreate exampleConstants failingNamespaceWebhook.recording liveContext
      exampleProject ((), [])).2.2 =
        [Call.ensureNamespace exampleProject, Call.ensureSecretPermissions exampleProject]) :=
  ⟨rfl, rfl, rfl, by decide⟩

/-- C9 (amended): for a valid spec, a dry-run request makes `ValidateCreate` return success
without any call and without change of the world; a request that is not a dry run makes it
invoke `ensureNamespaceFn` first and, when that succeeded, `ensureSecretPermissionsFn` next
and nothing else; when `ensureNamespaceFn` failed, no further call is made. -/
theorem ValidateCreate_dry_run_and_order {σ : Type} (api : kargoapi.Constants)
    (w : webhook σ) (ctx : Context) (project : kargoapi.Project) (s : σ)
    (req : admission.Request)
    (hvalid : w.validateSpecFn (field.NewPath "spec") project.Spec = [])
    (hreq : ctx.request = some req) :
    (req.DryRun = some true →
      ValidateCreate api w ctx project s = (([], none), s) ∧
      (ValidateCreate api w.recording ctx project (s, [])).2 = (s, [])) ∧
    (req.DryRun ≠ some true →
      ((w.ensureNamespaceFn ctx project s).1 = none →
        (ValidateCreate api w.recording ctx project (s, [])).2.2 =
          [Call.ensureNamespace project, Call.ensureSecretPermissions project]) ∧
      ((w.ensureNamespaceFn ctx project s).1 ≠ none →
        (ValidateCreate api w.recording ctx project (s, [])).2.2 =
          [Call.ensureNamespace project])) := by
  have hvalid2 : w.recording.validateSpecFn (field.NewPath "spec") project.Spec = [] := hvalid
  constructor
  · intro hdry
    rw [ValidateCreate_of_valid api w ctx project s req hvalid hreq,
      ValidateCreate_of_valid api w.recording ctx project (s, []) req hvalid2 hreq]
    simp [hdry]
  · intro hlive
    rw [ValidateCreate_recording_of_live api w ctx project s req hvalid hreq hlive]
    constructor
    · intro h; simp [h]
    · intro h
      cases hn : (w.ensureNamespaceFn ctx project s).1 with
      | none => exact absurd hn h
      | some e => rfl

/-- C9 (amended) at the project `team1` on the empty store, not a dry run. -/
theorem ValidateCreate_dry_run_and_order_witness :
    storeWebhook.validateSpecFn (field.NewPath "spec") exampleProject.Spec = [] ∧
    liveContext.request = some { DryRun := none } ∧
    ((({ DryRun := none } : admission.Request).DryRun = some true →
      ValidateCreate exampleConstants storeWebhook liveContext exampleProject emptyStore =
        (([], none), emptyStore) ∧
      (ValidateCreate exampleConstants storeWebhook.recording liveContext exampleProject
        (emptyStore, [])).2 = (emptyStore, [])) ∧
    (({ DryRun := none } : admission.Request).DryRun ≠ some true →
      ((storeWebhook.ensureNamespaceFn liveContext exampleProject emptyStore).1 = none →
        (ValidateCreate exampleConstants storeWebhook.recording liveContext exampleProject
          (emptyStore, [])).2.2 =
          [Call.ensureNamespace exampleProject, Call.ensureSecretPermissions exampleProject]) ∧
      ((storeWebhook.ensureNamespaceFn liveContext exampleProject emptyStore).1 ≠ none →
        (ValidateCreate exampleConstants storeWebhook.recording liveContext exampleProject
          (emptyStore, [])).2.2 = [Call.ensureNamespace exampleProject]))) :=
  ⟨rfl, rfl,
    ValidateCreate_dry_run_and_order exampleConstants storeWebhook liveContext exampleProject
      emptyStore { DryRun := none } rfl rfl⟩

/-- C10: for a valid spec in a request that is not a dry run, a failure of
`ensureNamespaceFn` is returned as it is and `ensureSecretPermissionsFn` is not invoked; after
a success of `ensureNamespaceFn`, `ValidateCreate` returns exactly the result of
`ensureSecretPermissionsFn`, run on the world `ensureNamespaceFn` left, so its failure is
surfaced although the namespace step succeeded. -/
theorem ValidateCreate_propagates_first_failure {σ : Type} (api : kargoapi.Constants)
    (w : webhook σ) (ctx : Context) (project : kargoapi.Project) (s : σ)
    (req : admission.Request)
    (hvalid : w.validateSpecFn (field.NewPath "spec") project.Spec = [])
    (hreq : ctx.request = some req) (hlive : req.DryRun ≠ some true) :
    (∀ e, (w.ensureNamespaceFn ctx project s).1 = some e →
      ValidateCreate api w ctx project s =
        (([], some e), (w.ensureNamespaceFn ctx project s).2) ∧
      (ValidateCreate api w.recording ctx project (s, [])).2.2 =
        [Call.ensureNamespace project]) ∧
    ((w.ensureNamespaceFn ctx project s).1 = none →
      ValidateCreate api w ctx project s =
        (([], (w.ensureSecretPermissionsFn ctx project
            (w.ensureNamespaceFn ctx project s).2).1),
          (w.ensureSecretPermissionsFn ctx project (w.ensureNamespaceFn ctx project s).2).2) ∧
      (ValidateCreate api w.recording ctx project (s, [])).2.2 =
        [Call.ensureNamespace project, Call.ensureSecretPermissions project]) := by
  rw [ValidateCreate_recording_of_live api w ctx project s req hvalid hreq hlive,
    ValidateCreate_of_valid api w ctx project s req hvalid hreq]
  simp only [hlive, if_false]
  rcases hn : w.ensureNamespaceFn ctx project s with ⟨_ | e0, s1⟩
  · simp
  · simp

/-- C10 at the webhook whose `ensureNamespaceFn` fails: the failure is the admission error. -/
theorem ValidateCreate_propagates_first_failure_witness :
    failingNamespaceWebhook.validateSpecFn (field.NewPath "spec") exampleProject.Spec = [] ∧
    liveContext.request = some { DryRun := none } ∧
    ({ DryRun := none } : admission.Request).DryRun ≠ some true ∧
    (∀ e, (failingNamespaceWebhook.ensureNamespaceFn liveContext exampleProject ()).1 = some e →
      ValidateCreate exampleConstants failingNamespaceWebhook liveContext exampleProject () =
        (([], some e),
          (failingNamespaceWebhook.ensureNamespaceFn liveContext exampleProject ()).2) ∧
      (ValidateCreate exampleConstants failingNamespaceWebhook.recording liveContext
        exampleProject ((), [])).2.2 = [Call.ensureNamespace exampleProject]) ∧
    ((failingNamespaceWebhook.ensureNamespaceFn liveContext exampleProject ()).1 = none →
      ValidateCreate exampleConstants failingNamespaceWebhook liveContext exampleProject () =
        (([], (failingNamespaceWebhook.ensureSecretPermissionsFn liveContext exampleProject
            (failingNamespaceWebhook.ensureNamespaceFn liveContext exampleProject ()).2).1),
          (failingNamespaceWebhook.ensureSecretPermissionsFn liveContext exampleProject
            (failingNamespaceWebhook.ensureNamespaceFn liveContext exampleProject ()).2).2) ∧
      (ValidateCreate exampleConstants failingNamespaceWebhook.recording liveContext
        exampleProject ((), [])).2.2 =
        [Call.ensureNamespace exampleProject, Call.ensureSecretPermissions exampleProject]) :=
  ⟨rfl, rfl, by decide,
    ValidateCreate_propagates_first_failure exampleConstants failingNamespaceWebhook
      liveContext exampleProject () { DryRun := none } rfl rfl (by decide)⟩

/-! ## `ValidateCreate` over the explicit store -/

/-- Lookup in a store without a namespace of that name reports not-found. -/
theorem Store.Get_of_absent (ctx : Context) (key : types.NamespacedName) (st : Store)
    (habsent : ∀ ns ∈ st.namespaces, ns.Name ≠ key.Name) :
    Store.Get ctx key st =
      (Except.error (Error.Status metav1.StatusReason.NotFound
        ("namespaces " ++ quote key.Name ++ " not found")), st) := by
  have hfind : st.namespaces.find? (fun ns => ns.Name == key.Name) = none := by
    rw [List.find?_eq_none]
    intro ns hns
    simpa using habsent ns hns
  simp [Store.Get, hfind]

/-- Lookup finds a namespace appended to a list that had none of that name. -/
theorem Store.Get_of_appended (ctx : Context) (key : types.NamespacedName) (st : Store)
    (namespaces : List corev1.Namespace) (ns : corev1.Namespace)
    (hst : st.namespaces = namespaces ++ [ns])
    (habsent : ∀ n ∈ namespaces, n.Name ≠ key.Name) (hname : ns.Name = key.Name) :
    Store.Get ctx key st = (Except.ok ns, st) := by
  have hfind : st.namespaces.find? (fun n => n.Name == key.Name) = some ns := by
    rw [hst, List.find?_append]
    have h1 : namespaces.find? (fun n => n.Name == key.Name) = none := by
      rw [List.find?_eq_none]
      intro n hn
      simpa using habsent n hn
    simp [h1, hname]
  simp [Store.Get, hfind]

/-- The namespace `ensureNamespace` creates is not in conflict with its project. -/
theorem namespaceConflict_projectNamespace (api : kargoapi.Constants)
    (project : kargoapi.Project) :
    namespaceConflict api (projectNamespace api project) project = false := by
  simp [namespaceConflict, projectNamespace, mapIndex, List.lookup]

/-- Creation of a role binding leaves the namespaces alone and leaves the role binding
present. -/
theorem Store.Create_roleBinding (ctx : Context) (rb : rbacv1.RoleBinding) (st : Store) :
    (Store.Create ctx (client.Object.RoleBinding rb) st).2.namespaces = st.namespaces ∧
    (Store.Create ctx (client.Object.RoleBinding rb) st).2.roleBindings.any
      (fun b => b.Namespace == rb.Namespace && b.Name == rb.Name) = true ∧
    ((Store.Create ctx (client.Object.RoleBinding rb) st).1 = none ∨
      ∃ e, (Store.Create ctx (client.Object.RoleBinding rb) st).1 = some e ∧
        apierrors.IsAlreadyExists e = true) := by
  by_cases h : st.roleBindings.any
      (fun b => b.Namespace == rb.Namespace && b.Name == rb.Name) = true
  · have hc : Store.Create ctx (client.Object.RoleBinding rb) st =
        (some (Error.Status metav1.StatusReason.AlreadyExists
          ("rolebindings " ++ quote rb.Name ++ " already exists")), st) := by
      simp only [Store.Create, h, if_true]
    rw [hc]
    exact ⟨rfl, h, Or.inr ⟨_, rfl, rfl⟩⟩
  · have hc : Store.Create ctx (client.Object.RoleBinding rb) st =
        (none, { st with roleBindings := st.roleBindings ++ [rb] }) := by
      simp only [Store.Create, h]
      rfl
    rw [hc]
    refine ⟨rfl, ?_, Or.inl rfl⟩
    simp

/-- Creation of a role binding that is present changes nothing and reports already-exists. -/
theorem Store.Create_roleBinding_present (ctx : Context) (rb : rbacv1.RoleBinding)
    (st : Store)
    (h : st.roleBindings.any (fun b => b.Namespace == rb.Namespace && b.Name == rb.Name) = true) :
    Store.Create ctx (client.Object.RoleBinding rb) st =
      (some (Error.Status metav1.StatusReason.AlreadyExists
        ("rolebindings " ++ quote rb.Name ++ " already exists")), st) := by
  simp only [Store.Create, h, if_true]

/-- The namespace step over the store, on a store without the namespace: the namespace of
the project is added. -/
theorem ensureNamespace_store_fresh (api : kargoapi.Constants) (w : webhook Store)
    (ctx : Context) (project : kargoapi.Project) (st : Store)
    (hget : w.getNamespaceFn = Store.Get)
    (hcreate : w.createNamespaceFn = fun c ns => Store.Create c (client.Object.Namespace ns))
    (habsent : ∀ ns ∈ st.namespaces, ns.Name ≠ project.Name) :
    ensureNamespace api w ctx project st =
      (none, { st with namespaces := st.namespaces ++ [projectNamespace api project] }) := by
  have h1 : w.getNamespaceFn ctx { Namespace := "", Name := project.Name } st =
      (Except.error (Error.Status metav1.StatusReason.NotFound
        ("namespaces " ++ quote project.Name ++ " not found")), st) := by
    rw [hget]
    exact Store.Get_of_absent ctx { Namespace := "", Name := project.Name } st habsent
  rw [ensureNamespace_of_notFound api w ctx project st st _ h1 rfl, hcreate]
  have hany : st.namespaces.any (fun n => n.Name == (projectNamespace api project).Name) =
      false := by
    rw [List.any_eq_false]
    intro n hn
    simpa [projectNamespace] using habsent n hn
  simp [Store.Create, hany]

/-- The namespace step over the store, on a store whose namespace of that name is the one
the webhook created: success, store unchanged. -/
theorem ensureNamespace_store_again (api : kargoapi.Constants) (w : webhook Store)
    (ctx : Context) (project : kargoapi.Project) (st : Store)
    (namespaces : List corev1.Namespace)
    (hget : w.getNamespaceFn = Store.Get)
    (hst : st.namespaces = namespaces ++ [projectNamespace api project])
    (habsent : ∀ ns ∈ namespaces, ns.Name ≠ project.Name) :
    ensureNamespace api w ctx project st = (none, st) := by
  have h1 : w.getNamespaceFn ctx { Namespace := "", Name := project.Name } st =
      (Except.ok (projectNamespace api project), st) := by
    rw [hget]
    exact Store.Get_of_appended ctx { Namespace := "", Name := project.Name } st namespaces
      (projectNamespace api project) hst habsent rfl
  rw [ensureNamespace_of_found api w ctx project st st (projectNamespace api project) h1]
  simp [namespaceConflict_projectNamespace]

/-- The permission step over the store always succeeds and leaves the store that the creation
of the role binding leaves. -/
theorem ensureSecretPermissions_store (w : webhook Store) (ctx : Context)
    (project : kargoapi.Project) (st : Store)
    (hcreate : w.createRoleBindingFn =
      fun c rb => Store.Create c (client.Object.RoleBinding rb)) :
    ensureSecretPermissions w ctx project st =
      (none, (Store.Create ctx
        (client.Object.RoleBinding (secretsRoleBinding w.cfg.KargoNamespace project)) st).2) := by
  have h := (Store.Create_roleBinding ctx
    (secretsRoleBinding w.cfg.KargoNamespace project) st).2.2
  rw [ensureSecretPermissions_unfold, hcreate]
  beta_reduce
  rcases hc : Store.Create ctx
    (client.Object.RoleBinding (secretsRoleBinding w.cfg.KargoNamespace project)) st
    with ⟨_ | e, s1⟩
  · rfl
  · rw [hc] at h
    have he : apierrors.IsAlreadyExists e = true := by simpa using h
    simp [he]

/-- The webhook built by `newWebhook` over the store, on a valid project, in a request that
is not a dry run, on a store without the namespace: success; the namespace of the project is
appended and the role binding is created unless present. -/
theorem ValidateCreate_store_first (api : kargoapi.Constants) (cfg : WebhookConfig)
    (project : kargoapi.Project) (st : Store) (req : admission.Request)
    (hvalid : validateSpec (field.NewPath "spec") project.Spec = [])
    (habsent : ∀ ns ∈ st.namespaces, ns.Name ≠ project.Name)
    (hlive : req.DryRun ≠ some true) :
    ValidateCreate api (newWebhook api Store.client cfg) { request := some req } project st =
      (([], none),
        (Store.Create { request := some req }
          (client.Object.RoleBinding (secretsRoleBinding cfg.KargoNamespace project))
          { st with namespaces := st.namespaces ++ [projectNamespace api project] }).2) := by
  have hns : (newWebhook api Store.client cfg).ensureNamespaceFn { request := some req }
      project st =
      (none, { st with namespaces := st.namespaces ++ [projectNamespace api project] }) :=
    ensureNamespace_store_fresh api _ { request := some req } project st rfl rfl habsent
  have hperm : ∀ st1, (newWebhook api Store.client cfg).ensureSecretPermissionsFn
      { request := some req } project st1 =
      (none, (Store.Create { request := some req }
        (client.Object.RoleBinding (secretsRoleBinding cfg.KargoNamespace project)) st1).2) :=
    fun st1 => ensureSecretPermissions_store _ { request := some req } project st1 rfl
  rw [ValidateCreate_of_valid api _ { request := some req } project st req hvalid rfl]
  simp only [hlive, if_false, hns, hperm]

/-- The webhook built by `newWebhook` over the store, on a valid project, on a store whose
namespace of that name is the one the webhook created and which holds the role binding:
success, store unchanged. -/
theorem ValidateCreate_store_again (api : kargoapi.Constants) (cfg : WebhookConfig)
    (project : kargoapi.Project) (st : Store) (namespaces : List corev1.Namespace)
    (req : admission.Request)
    (hvalid : validateSpec (field.NewPath "spec") project.Spec = [])
    (hst : st.namespaces = namespaces ++ [projectNamespace api project])
    (habsent : ∀ ns ∈ namespaces, ns.Name ≠ project.Name)
    (hrb : st.roleBindings.any (fun b =>
      b.Namespace == (secretsRoleBinding cfg.KargoNamespace project).Namespace &&
        b.Name == (secretsRoleBinding cfg.KargoNamespace project).Name) = true) :
    ValidateCreate api (newWebhook api Store.client cfg) { request := some req } project st =
      (([], none), st) := by
  have hns : (newWebhook api Store.client cfg).ensureNamespaceFn { request := some req }
      project st = (none, st) :=
    ensureNamespace_store_again api _ { request := some req } project st namespaces rfl hst
      habsent
  have hperm : (newWebhook api Store.client cfg).ensureSecretPermissionsFn
      { request := some req } project st = (none, st) := by
    have h := ensureSecretPermissions_store (newWebhook api Store.client cfg)
      { request := some req } project st rfl
    rw [show (newWebhook api Store.client cfg).cfg.KargoNamespace = cfg.KargoNamespace from rfl,
      Store.Create_roleBinding_present _ _ st hrb] at h
    exact h
  rw [ValidateCreate_of_valid api _ { request := some req } project st req hvalid rfl]
  by_cases hdry : req.DryRun = some true
  · simp [hdry]
  · simp only [hdry, if_false, hns, hperm]

/-- C7: over the explicit store (lookup reports not-found iff absent, creation reports
already-exists iff present), for a valid project and a store without a namespace of the
project's name, a first `ValidateCreate` that is not a dry run succeeds, and a second
`ValidateCreate` of the same project on the store it left succeeds and leaves that store
unchanged: neither the namespace nor the role binding is created again. -/
theorem ValidateCreate_idempotent (api : kargoapi.Constants) (cfg : WebhookConfig)
    (project : kargoapi.Project) (st : Store) (req1 req2 : admission.Request)
    (hvalid : validateSpec (field.NewPath "spec") project.Spec = [])
    (habsent : ∀ ns ∈ st.namespaces, ns.Name ≠ project.Name)
    (hlive : req1.DryRun ≠ some true) :
    (ValidateCreate api (newWebhook api Store.client cfg) { request := some req1 }
      project st).1 = ([], none) ∧
    (ValidateCreate api (newWebhook api Store.client cfg) { request := some req1 }
      project st).2.namespaces = st.namespaces ++ [projectNamespace api project] ∧
    (ValidateCreate api (newWebhook api Store.client cfg) { request := some req1 }
      project st).2.roleBindings.any (fun b =>
        b.Namespace == project.Name &&
          b.Name == "kargo-api-server-manage-project-secrets") = true ∧
    ValidateCreate api (newWebhook api Store.client cfg) { request := some req2 } project
        (ValidateCreate api (newWebhook api Store.client cfg) { request := some req1 }
          project st).2 =
      (([], none),
        (ValidateCreate api (newWebhook api Store.client cfg) { request := some req1 }
          project st).2) := by
  rw [ValidateCreate_store_first api cfg project st req1 hvalid habsent hlive]
  have hc := Store.Create_roleBinding { request := some req1 }
    (secretsRoleBinding cfg.KargoNamespace project)
    { st with namespaces := st.namespaces ++ [projectNamespace api project] }
  refine ⟨rfl, hc.1, hc.2.1, ?_⟩
  exact ValidateCreate_store_again api cfg project _ st.namespaces req2 hvalid hc.1 habsent
    hc.2.1

/-- C7 at the project `team1` on the empty store. -/
theorem ValidateCreate_idempotent_witness :
    validateSpec (field.NewPath "spec") exampleProject.Spec = [] ∧
    (∀ ns ∈ emptyStore.namespaces, ns.Name ≠ exampleProject.Name) ∧
    ({ DryRun := none } : admission.Request).DryRun ≠ some true ∧
    (ValidateCreate exampleConstants (newWebhook exampleConstants Store.client
      { KargoNamespace := "kargo" }) { request := some { DryRun := none } }
      exampleProject emptyStore).1 = ([], none) ∧
    (ValidateCreate exampleConstants (newWebhook exampleConstants Store.client
      { KargoNamespace := "kargo" }) { request := some { DryRun := none } }
      exampleProject emptyStore).2.namespaces =
        emptyStore.namespaces ++ [projectNamespace exampleConstants exampleProject] ∧
    (ValidateCreate exampleConstants (newWebhook exampleConstants Store.client
      { KargoNamespace := "kargo" }) { request := some { DryRun := none } }
      exampleProject emptyStore).2.roleBindings.any (fun b =>
        b.Namespace == exampleProject.Name &&
          b.Name == "kargo-api-server-manage-project-secrets") = true ∧
    ValidateCreate exampleConstants (newWebhook exampleConstants Store.client
        { KargoNamespace := "kargo" }) { request := some { DryRun := some false } }
        exampleProject
        (ValidateCreate exampleConstants (newWebhook exampleConstants Store.client
          { KargoNamespace := "kargo" }) { request := some { DryRun := none } }
          exampleProject emptyStore).2 =
      (([], none),
        (ValidateCreate exampleConstants (newWebhook exampleConstants Store.client
          { KargoNamespace := "kargo" }) { request := some { DryRun := none } }
          exampleProject emptyStore).2) :=
  ⟨rfl, by simp [emptyStore], by decide,
    ValidateCreate_idempotent exampleConstants { KargoNamespace := "kargo" } exampleProject
      emptyStore { DryRun := none } { DryRun := some false } rfl (by simp [emptyStore])
      (by decide)⟩

/-! ## `ValidateUpdate` -/

/-- C11: `ValidateUpdate` runs the spec validation of `ValidateCreate` on the new object only:
it returns an invalid-resource error if and only if the validation of the new object's spec
returns at least one error (for the webhook built by `newWebhook` that validation is
`validateSpec`), and then the same error `ValidateCreate` returns; its result depends neither
on the old object nor on the context; it calls no collaborator and leaves the world
unchanged. -/
theorem ValidateUpdate_validates_new_only {σ : Type} (api : kargoapi.Constants)
    (w : webhook σ) (ctx : Context) (oldObj newObj : kargoapi.Project) (s : σ) :
    ((∃ e, (ValidateUpdate api w ctx oldObj newObj s).1.2 = some e ∧
        apierrors.IsInvalid e = true) ↔
      (w.validateSpecFn (field.NewPath "spec") newObj.Spec).length > 0) ∧
    ((w.validateSpecFn (field.NewPath "spec") newObj.Spec).length > 0 →
      ValidateUpdate api w ctx oldObj newObj s =
        (([], some (Error.Invalid (projectGroupKind api) newObj.Name
          (w.validateSpecFn (field.NewPath "spec") newObj.Spec))), s) ∧
      ValidateUpdate api w ctx oldObj newObj s = ValidateCreate api w ctx newObj s) ∧
    (¬ (w.validateSpecFn (field.NewPath "spec") newObj.Spec).length > 0 →
      ValidateUpdate api w ctx oldObj newObj s = (([], none), s)) ∧
    (∀ (kubeClient : client.Client σ) (cfg : WebhookConfig),
      (∃ e, (ValidateUpdate api (newWebhook api kubeClient cfg) ctx oldObj newObj s).1.2 =
          some e ∧ apierrors.IsInvalid e = true) ↔
        (validateSpec (field.NewPath "spec") newObj.Spec).length > 0) ∧
    (∀ (ctx2 : Context) (oldObj2 : kargoapi.Project),
      ValidateUpdate api w ctx2 oldObj2 newObj s = ValidateUpdate api w ctx oldObj newObj s) ∧
    (ValidateUpdate api w ctx oldObj newObj s).2 = s ∧
    (ValidateUpdate api w.recording ctx oldObj newObj (s, [])).2 = (s, []) := by
  have key : ∀ {τ : Type} (v : webhook τ) (t : τ),
      ((∃ e, (ValidateUpdate api v ctx oldObj newObj t).1.2 = some e ∧
          apierrors.IsInvalid e = true) ↔
        (v.validateSpecFn (field.NewPath "spec") newObj.Spec).length > 0) ∧
      (ValidateUpdate api v ctx oldObj newObj t).2 = t := by
    intro τ v t
    unfold ValidateUpdate
    by_cases h : (v.validateSpecFn (field.NewPath "spec") newObj.Spec).length > 0
    · simp only [h, if_true, iff_true, and_true]
      exact ⟨_, rfl, rfl⟩
    · simp [h]
  refine ⟨(key w s).1, ?_, ?_, ?_, fun _ _ => rfl, (key w s).2, ?_⟩
  · intro h
    unfold ValidateUpdate ValidateCreate
    simp only [h, if_true, and_self]
  · intro h
    unfold ValidateUpdate
    simp only [h, if_false]
  · intro kubeClient cfg
    exact (key (newWebhook api kubeClient cfg) s).1
  · exact (key w.recording (s, [])).2

/-! ## `Reconcile` -/

/-- No first error among outcomes means every outcome is a success. -/
theorem head?_reduceOption_eq_none_iff (l : List (Option Error)) :
    l.reduceOption.head? = none ↔ ∀ o ∈ l, o = none := by
  induction l with
  | nil => simp
  | cons o l ih =>
    cases o with
    | none => simp [List.reduceOption_cons_of_none, ih]
    | some a => simp [List.reduceOption_cons_of_some]

/-- The first error among outcomes is the error at the first position that is not a
success. -/
theorem head?_reduceOption_eq_some_iff (l : List (Option Error)) (e : Error) :
    l.reduceOption.head? = some e ↔
      ∃ k : Nat, l[k]? = some (some e) ∧ ∀ j : Nat, j < k → l[j]? = some none := by
  induction l with
  | nil => simp
  | cons o l ih =>
    cases o with
    | none =>
      rw [List.reduceOption_cons_of_none, ih]
      constructor
      · rintro ⟨k, hk, hj⟩
        refine ⟨k + 1, by simpa using hk, ?_⟩
        intro j hjk
        cases j with
        | zero => simp
        | succ j => simpa using hj j (by omega)
      · rintro ⟨k, hk, hj⟩
        cases k with
        | zero => simp at hk
        | succ k =>
          refine ⟨k, by simpa using hk, ?_⟩
          intro j hjk
          simpa using hj (j + 1) (by omega)
    | some a =>
      rw [List.reduceOption_cons_of_some]
      constructor
      · intro h
        have hae : a = e := by simpa using h
        exact ⟨0, by simp [hae], by intro j hj; omega⟩
      · rintro ⟨k, hk, hj⟩
        cases k with
        | zero => simpa using hk
        | succ k =>
          have := hj 0 (by omega)
          simp at this

/-- The world the loop leaves is the world after the refresh patches. -/
theorem Reconcile.loop_world {σ : Type} (RefreshStage : RefreshStageFn σ) (r : reconciler σ)
    (ctx : Context) :
    ∀ (stages : List kargoapi.Stage) (errs : List Error) (s : σ),
      (Reconcile.loop RefreshStage r ctx stages errs s).2 =
        refreshWorld RefreshStage r ctx stages s := by
  intro stages
  induction stages with
  | nil => intro errs s; rfl
  | cons stage rest ih =>
    intro errs s
    unfold Reconcile.loop refreshWorld
    rcases h : RefreshStage ctx r.kubeClient { Namespace := stage.Namespace, Name := stage.Name } s
      with ⟨_ | e, s1⟩
    · simp only [stageKey, h]; exact ih _ _
    · simp only [stageKey, h]; exact ih _ _

/-- The errors the loop collects are the failures among the outcomes, in list order. -/
theorem Reconcile.loop_errs {σ : Type} (RefreshStage : RefreshStageFn σ) (r : reconciler σ)
    (ctx : Context) :
    ∀ (stages : List kargoapi.Stage) (errs : List Error) (s : σ),
      (Reconcile.loop RefreshStage r ctx stages errs s).1 =
        errs ++ (refreshOutcomes RefreshStage r ctx stages s).reduceOption := by
  intro stages
  induction stages with
  | nil => intro errs s; simp [Reconcile.loop, refreshOutcomes]
  | cons stage rest ih =>
    intro errs s
    unfold Reconcile.loop refreshOutcomes
    rcases h : RefreshStage ctx r.kubeClient { Namespace := stage.Namespace, Name := stage.Name } s
      with ⟨_ | e, s1⟩
    · simp only [stageKey, h, List.reduceOption_cons_of_none]; exact ih _ _
    · simp only [stageKey, h, List.reduceOption_cons_of_some]
      rw [ih]
      simp

/-- The loop of the recording reconciler behaves as the loop and records one refresh call per
stage, in list order. -/
theorem Reconcile.loop_recording {σ : Type} (RefreshStage : RefreshStageFn σ)
    (r : reconciler σ) (ctx : Context) :
    ∀ (stages : List kargoapi.Stage) (errs : List Error) (s : σ) (log : List ReconcileCall),
      Reconcile.loop (recordingRefresh RefreshStage r) r.recording ctx stages errs (s, log) =
        ((Reconcile.loop RefreshStage r ctx stages errs s).1,
          ((Reconcile.loop RefreshStage r ctx stages errs s).2,
            log ++ stages.map (fun stage => ReconcileCall.refresh (stageKey stage)))) := by
  intro stages
  induction stages with
  | nil => intro errs s log; simp [Reconcile.loop]
  | cons stage rest ih =>
    intro errs s log
    unfold Reconcile.loop
    rcases h : RefreshStage ctx r.kubeClient { Namespace := stage.Namespace, Name := stage.Name } s
      with ⟨_ | e, s1⟩
    · simp only [recordingRefresh, h]
      rw [ih]
      simp [stageKey]
    · simp only [recordingRefresh, h]
      rw [ih]
      simp [stageKey]

/-- The run of `Reconcile` when the listing succeeded. -/
theorem Reconcile_of_listed {σ : Type} (consts : controller.Constants)
    (RefreshStage : RefreshStageFn σ) (r : reconciler σ) (ctx : Context) (req : ctrl.Request)
    (s s1 : σ) (stages : List kargoapi.Stage)
    (hlist : r.kubeClient.List ctx
      { FieldSelector := fields.OneTermEqualSelector
          consts.StagesByArgoCDApplicationsIndexField
          (req.NamespacedName.Namespace ++ ":" ++ req.NamespacedName.Name) } s =
      (Except.ok stages, s1)) :
    Reconcile consts RefreshStage r ctx req s =
      (({ Requeue := false, RequeueAfter := 0 },
        (refreshOutcomes RefreshStage r ctx stages s1).reduceOption.head?),
        refreshWorld RefreshStage r ctx stages s1) := by
  unfold Reconcile
  rw [hlist]
  have hl : Reconcile.loop RefreshStage r ctx stages [] s1 =
      ((refreshOutcomes RefreshStage r ctx stages s1).reduceOption,
        refreshWorld RefreshStage r ctx stages s1) := by
    apply Prod.ext
    · simpa using Reconcile.loop_errs RefreshStage r ctx stages [] s1
    · exact Reconcile.loop_world RefreshStage r ctx stages [] s1
  simp only [hl]
  cases (refreshOutcomes RefreshStage r ctx stages s1).reduceOption <;> rfl

/-- One outcome per listed stage. -/
theorem refreshOutcomes_length {σ : Type} (RefreshStage : RefreshStageFn σ) (r : reconciler σ)
    (ctx : Context) :
    ∀ (stages : List kargoapi.Stage) (s : σ),
      (refreshOutcomes RefreshStage r ctx stages s).length = stages.length := by
  intro stages
  induction stages with
  | nil => intro s; rfl
  | cons stage rest ih => intro s; simp [refreshOutcomes, ih]

/-- C12: when the index query returned the dependent stages, `Reconcile` attempts the refresh
of every one of them exactly once, in list order, whatever the refresh patches return: after
the listing, the recorded calls are one refresh per stage; the world is the one all the
patches left, a failed patch not stopping the later ones. -/
theorem Reconcile_refreshes_every_dependent {σ : Type} (consts : controller.Constants)
    (RefreshStage : RefreshStageFn σ) (r : reconciler σ) (ctx : Context) (req : ctrl.Request)
    (s s1 : σ) (stages : List kargoapi.Stage)
    (hlist : r.kubeClient.List ctx
      { FieldSelector := fields.OneTermEqualSelector
          consts.StagesByArgoCDApplicationsIndexField
          (req.NamespacedName.Namespace ++ ":" ++ req.NamespacedName.Name) } s =
      (Except.ok stages, s1)) :
    (Reconcile consts (recordingRefresh RefreshStage r) r.recording ctx req (s, [])).2.2 =
      ReconcileCall.list
        { FieldSelector := fields.OneTermEqualSelector
            consts.StagesByArgoCDApplicationsIndexField
            (req.NamespacedName.Namespace ++ ":" ++ req.NamespacedName.Name) } ::
        stages.map (fun stage => ReconcileCall.refresh (stageKey stage)) ∧
    (Reconcile consts (recordingRefresh RefreshStage r) r.recording ctx req (s, [])).1 =
      (Reconcile consts RefreshStage r ctx req s).1 ∧
    (Reconcile consts (recordingRefresh RefreshStage r) r.recording ctx req (s, [])).2.1 =
      (Reconcile consts RefreshStage r ctx req s).2 ∧
    (Reconcile consts RefreshStage r ctx req s).2 = refreshWorld RefreshStage r ctx stages s1 ∧
    (refreshOutcomes RefreshStage r ctx stages s1).length = stages.length := by
  have hrec : r.recording.kubeClient.List ctx
      { FieldSelector := fields.OneTermEqualSelector
          consts.StagesByArgoCDApplicationsIndexField
          (req.NamespacedName.Namespace ++ ":" ++ req.NamespacedName.Name) } (s, []) =
      (Except.ok stages, (s1, [ReconcileCall.list
        { FieldSelector := fields.OneTermEqualSelector
            consts.StagesByArgoCDApplicationsIndexField
            (req.NamespacedName.Namespace ++ ":" ++ req.NamespacedName.Name) }])) := by
    simp [reconciler.recording, hlist]
  have hrun : Reconcile consts (recordingRefresh RefreshStage r) r.recording ctx req (s, []) =
      ((Reconcile consts RefreshStage r ctx req s).1,
        ((Reconcile consts RefreshStage r ctx req s).2,
          ReconcileCall.list
            { FieldSelector := fields.OneTermEqualSelector
                consts.StagesByArgoCDApplicationsIndexField
                (req.NamespacedName.Namespace ++ ":" ++ req.NamespacedName.Name) } ::
            stages.map (fun stage => ReconcileCall.refresh (stageKey stage)))) := by
    unfold Reconcile
    rw [hrec, hlist]
    simp only [Reconcile.loop_recording]
    rcases Reconcile.loop RefreshStage r ctx stages [] s1 with ⟨_ | ⟨e, es⟩, s2⟩ <;> simp
  rw [hrun]
  refine ⟨rfl, rfl, rfl, ?_, refreshOutcomes_length RefreshStage r ctx stages s1⟩
  rw [Reconcile_of_listed consts RefreshStage r ctx req s s1 stages hlist]

/-- C12 at the dependents `stage1`, `stage2` of application `ns1:app1`, the patch of `stage2`
failing: both are attempted, and `stage1` is refreshed. -/
theorem Reconcile_refreshes_every_dependent_witness :
    (newReconciler exampleStageClient).kubeClient.List liveContext
      { FieldSelector := fields.OneTermEqualSelector
          exampleControllerConstants.StagesByArgoCDApplicationsIndexField
          (exampleRequest.NamespacedName.Namespace ++ ":" ++
            exampleRequest.NamespacedName.Name) } [] =
      (Except.ok [exampleStage1, exampleStage2], []) ∧
    ((Reconcile exampleControllerConstants
        (recordingRefresh exampleRefreshStage (newReconciler exampleStageClient))
        (newReconciler exampleStageClient).recording liveContext exampleRequest ([], [])).2.2 =
      ReconcileCall.list
        { FieldSelector := fields.OneTermEqualSelector
            exampleControllerConstants.StagesByArgoCDApplicationsIndexField
            (exampleRequest.NamespacedName.Namespace ++ ":" ++
              exampleRequest.NamespacedName.Name) } ::
        [exampleStage1, exampleStage2].map
          (fun stage => ReconcileCall.refresh (stageKey stage)) ∧
    (Reconcile exampleControllerConstants
        (recordingRefresh exampleRefreshStage (newReconciler exampleStageClient))
        (newReconciler exampleStageClient).recording liveContext exampleRequest ([], [])).1 =
      (Reconcile exampleControllerConstants exampleRefreshStage
        (newReconciler exampleStageClient) liveContext exampleRequest []).1 ∧
    (Reconcile exampleControllerConstants
        (recordingRefresh exampleRefreshStage (newReconciler exampleStageClient))
        (newReconciler exampleStageClient).recording liveContext exampleRequest ([], [])).2.1 =
      (Reconcile exampleControllerConstants exampleRefreshStage
        (newReconciler exampleStageClient) liveContext exampleRequest []).2 ∧
    (Reconcile exampleControllerConstants exampleRefreshStage
        (newReconciler exampleStageClient) liveContext exampleRequest []).2 =
      refreshWorld exampleRefreshStage (newReconciler exampleStageClient) liveContext
        [exampleStage1, exampleStage2] [] ∧
    (refreshOutcomes exampleRefreshStage (newReconciler exampleStageClient) liveContext
      [exampleStage1, exampleStage2] []).length = [exampleStage1, exampleStage2].length) :=
  ⟨rfl,
    Reconcile_refreshes_every_dependent exampleControllerConstants exampleRefreshStage
      (newReconciler exampleStageClient) liveContext exampleRequest [] []
      [exampleStage1, exampleStage2] rfl⟩

/-- C13: when the listing succeeded, `Reconcile` returns no error if and only if every refresh
patch succeeded, and returns the error `e` if and only if `e` is the error of the first stage,
in list order, whose patch failed. -/
theorem Reconcile_returns_first_error {σ : Type} (consts : controller.Constants)
    (RefreshStage : RefreshStageFn σ) (r : reconciler σ) (ctx : Context) (req : ctrl.Request)
    (s s1 : σ) (stages : List kargoapi.Stage)
    (hlist : r.kubeClient.List ctx
      { FieldSelector := fields.OneTermEqualSelector
          consts.StagesByArgoCDApplicationsIndexField
          (req.NamespacedName.Namespace ++ ":" ++ req.NamespacedName.Name) } s =
      (Except.ok stages, s1)) :
    ((Reconcile consts RefreshStage r ctx req s).1.2 = none ↔
      ∀ o ∈ refreshOutcomes RefreshStage r ctx stages s1, o = none) ∧
    (∀ e, (Reconcile consts RefreshStage r ctx req s).1.2 = some e ↔
      ∃ k : Nat, (refreshOutcomes RefreshStage r ctx stages s1)[k]? = some (some e) ∧
        ∀ j : Nat, j < k → (refreshOutcomes RefreshStage r ctx stages s1)[j]? = some none) ∧
    (refreshOutcomes RefreshStage r ctx stages s1).length = stages.length := by
  rw [Reconcile_of_listed consts RefreshStage r ctx req s s1 stages hlist]
  exact ⟨head?_reduceOption_eq_none_iff _, fun e => head?_reduceOption_eq_some_iff _ e,
    refreshOutcomes_length RefreshStage r ctx stages s1⟩

/-- C13 at the dependents `stage1`, `stage2` of application `ns1:app1`, the patch of `stage2`
failing. -/
theorem Reconcile_returns_first_error_witness :
    (newReconciler exampleStageClient).kubeClient.List liveContext
      { FieldSelector := fields.OneTermEqualSelector
          exampleControllerConstants.StagesByArgoCDApplicationsIndexField
          (exampleRequest.NamespacedName.Namespace ++ ":" ++
            exampleRequest.NamespacedName.Name) } [] =
      (Except.ok [exampleStage1, exampleStage2], []) ∧
    (((Reconcile exampleControllerConstants exampleRefreshStage
        (newReconciler exampleStageClient) liveContext exampleRequest []).1.2 = none ↔
      ∀ o ∈ refreshOutcomes exampleRefreshStage (newReconciler exampleStageClient)
        liveContext [exampleStage1, exampleStage2] [], o = none) ∧
    (∀ e, (Reconcile exampleControllerConstants exampleRefreshStage
        (newReconciler exampleStageClient) liveContext exampleRequest []).1.2 = some e ↔
      ∃ k : Nat, (refreshOutcomes exampleRefreshStage (newReconciler exampleStageClient)
          liveContext [exampleStage1, exampleStage2] [])[k]? = some (some e) ∧
        ∀ j : Nat, j < k → (refreshOutcomes exampleRefreshStage
          (newReconciler exampleStageClient) liveContext
          [exampleStage1, exampleStage2] [])[j]? = some none) ∧
    (refreshOutcomes exampleRefreshStage (newReconciler exampleStageClient) liveContext
      [exampleStage1, exampleStage2] []).length = [exampleStage1, exampleStage2].length) :=
  ⟨rfl,
    Reconcile_returns_first_error exampleControllerConstants exampleRefreshStage
      (newReconciler exampleStageClient) liveContext exampleRequest [] []
      [exampleStage1, exampleStage2] rfl⟩

/-! ## `indexStagesByApp` -/

/-- The early return of `indexStagesByApp` is taken exactly when the shard does not match. -/
theorem shardSkip_iff (consts : controller.Constants) (shardName : String)
    (stage : kargoapi.Stage) :
    ((shardName == "" && (mapLookup stage.Labels consts.ShardLabelKey).2) ||
      (shardName != "" && shardName != (mapLookup stage.Labels consts.ShardLabelKey).1)) = true ↔
      ¬ shardMatches consts shardName stage := by
  unfold shardMatches
  cases hl : stage.Labels with
  | none =>
    by_cases hs : shardName = "" <;> simp [mapLookup, hs]
  | some l =>
    cases hv : l.lookup consts.ShardLabelKey with
    | none => by_cases hs : shardName = "" <;> simp [mapLookup, hv, hs]
    | some v =>
      by_cases hs : shardName = ""
      · simp [mapLookup, hv, hs]
      · simp [mapLookup, hv, hs]
        constructor
        · intro h1 h2; exact h1 h2.symm
        · intro h1 h2; exact h1 h2.symm

/-- The keys `indexStagesByApp` returns for a stage whose shard matches. -/
theorem indexStagesByApp_of_match (consts : controller.Constants)
    (AppNamespaceOrDefault : kargoapi.ArgoCDAppUpdate → String) (shardName : String)
    (stage : kargoapi.Stage) (hshard : shardMatches consts shardName stage) :
    indexStagesByApp consts AppNamespaceOrDefault shardName stage =
      match stage.Spec.PromotionMechanisms with
      | none => []
      | some pm =>
        pm.ArgoCDAppUpdates.map (fun a => AppNamespaceOrDefault a ++ ":" ++ a.AppName) := by
  have hskip : ((shardName == "" && (mapLookup stage.Labels consts.ShardLabelKey).2) ||
      (shardName != "" && shardName != (mapLookup stage.Labels consts.ShardLabelKey).1)) =
      false := by
    cases h : ((shardName == "" && (mapLookup stage.Labels consts.ShardLabelKey).2) ||
      (shardName != "" && shardName != (mapLookup stage.Labels consts.ShardLabelKey).1)) with
    | false => rfl
    | true => exact absurd hshard ((shardSkip_iff consts shardName stage).mp h)
  unfold indexStagesByApp
  simp only [hskip, Bool.false_eq_true, if_false]
  cases hpm : stage.Spec.PromotionMechanisms with
  | none => rfl
  | some pm =>
    cases hu : pm.ArgoCDAppUpdates with
    | nil => simp
    | cons a rest => simp

/-- The keys `indexStagesByApp` returns for a stage whose shard does not match: none. -/
theorem indexStagesByApp_of_mismatch (consts : controller.Constants)
    (AppNamespaceOrDefault : kargoapi.ArgoCDAppUpdate → String) (shardName : String)
    (stage : kargoapi.Stage) (hshard : ¬ shardMatches consts shardName stage) :
    indexStagesByApp consts AppNamespaceOrDefault shardName stage = [] := by
  have hskip := (shardSkip_iff consts shardName stage).mpr hshard
  unfold indexStagesByApp
  simp only [hskip, if_true]

/-- C14: for a stage that references at least one application, `indexStagesByApp` returns a
non-empty key list if and only if the shard name is empty and the stage carries no shard
label, or the shard name is not empty and the shard label of the stage equals it; every
mismatch gives the empty list (the function has no error result). -/
theorem indexStagesByApp_indexes_iff_shard_matches (consts : controller.Constants)
    (AppNamespaceOrDefault : kargoapi.ArgoCDAppUpdate → String) (shardName : String)
    (stage : kargoapi.Stage)
    (hrefs : ∃ pm, stage.Spec.PromotionMechanisms = some pm ∧ pm.ArgoCDAppUpdates ≠ []) :
    (indexStagesByApp consts AppNamespaceOrDefault shardName stage ≠ [] ↔
      shardMatches consts shardName stage) ∧
    (¬ shardMatches consts shardName stage →
      indexStagesByApp consts AppNamespaceOrDefault shardName stage = []) := by
  obtain ⟨pm, hpm, hne⟩ := hrefs
  refine ⟨⟨?_, ?_⟩, indexStagesByApp_of_mismatch consts AppNamespaceOrDefault shardName stage⟩
  · intro h
    by_contra hshard
    exact h (indexStagesByApp_of_mismatch consts AppNamespaceOrDefault shardName stage hshard)
  · intro hshard
    rw [indexStagesByApp_of_match consts AppNamespaceOrDefault shardName stage hshard, hpm]
    simpa using hne

/-- C14 at the unlabelled stage `stage1` and the default instance. -/
theorem indexStagesByApp_indexes_iff_shard_matches_witness :
    (∃ pm, exampleStage1.Spec.PromotionMechanisms = some pm ∧ pm.ArgoCDAppUpdates ≠ []) ∧
    (indexStagesByApp exampleControllerConstants exampleAppNamespaceOrDefault ""
        exampleStage1 ≠ [] ↔
      shardMatches exampleControllerConstants "" exampleStage1) ∧
    (¬ shardMatches exampleControllerConstants "" exampleStage1 →
      indexStagesByApp exampleControllerConstants exampleAppNamespaceOrDefault ""
        exampleStage1 = []) :=
  ⟨⟨_, rfl, by simp⟩,
    indexStagesByApp_indexes_iff_shard_matches exampleControllerConstants
      exampleAppNamespaceOrDefault "" exampleStage1 ⟨_, rfl, by simp⟩⟩

/-- The first call of `Reconcile` is the index query for the key built from the namespace and
the name of the changed application. -/
theorem Reconcile_first_call {σ : Type} (consts : controller.Constants)
    (RefreshStage : RefreshStageFn σ) (r : reconciler σ) (ctx : Context) (req : ctrl.Request)
    (s : σ) :
    (Reconcile consts (recordingRefresh RefreshStage r) r.recording ctx req (s, [])).2.2.head? =
      some (ReconcileCall.list
        { FieldSelector := fields.OneTermEqualSelector
            consts.StagesByArgoCDApplicationsIndexField
            (req.NamespacedName.Namespace ++ ":" ++ req.NamespacedName.Name) }) := by
  unfold Reconcile
  have hrec : ∀ opts, r.recording.kubeClient.List ctx opts (s, []) =
      ((r.kubeClient.List ctx opts s).1,
        ((r.kubeClient.List ctx opts s).2, [ReconcileCall.list opts])) := by
    intro opts
    simp [reconciler.recording]
  rw [hrec]
  rcases r.kubeClient.List ctx
      { FieldSelector := fields.OneTermEqualSelector
          consts.StagesByArgoCDApplicationsIndexField
          (req.NamespacedName.Namespace ++ ":" ++ req.NamespacedName.Name) } s
    with ⟨_ | stages, s1⟩
  · rfl
  · simp only [Reconcile.loop_recording]
    rcases Reconcile.loop RefreshStage r ctx stages [] s1 with ⟨_ | ⟨e, es⟩, s2⟩ <;> simp

/-- C15: for a stage that passes the shard filter, `indexStagesByApp` returns one key per
application reference of the promotion mechanisms, in the same order and of the same count,
the k-th key being `<namespace-or-default>:<name>` of the k-th reference, and no key when the
stage has no promotion mechanisms or no application references; `Reconcile` queries the index
with `<namespace>:<name>` of the changed application, and that string is among the keys of
every such stage that references an application of that namespace (or default) and name. -/
theorem indexStagesByApp_keys (consts : controller.Constants)
    (AppNamespaceOrDefault : kargoapi.ArgoCDAppUpdate → String) (shardName : String)
    (stage : kargoapi.Stage) (req : ctrl.Request)
    (hshard : shardMatches consts shardName stage) :
    (stage.Spec.PromotionMechanisms = none →
      indexStagesByApp consts AppNamespaceOrDefault shardName stage = []) ∧
    (∀ pm, stage.Spec.PromotionMechanisms = some pm →
      indexStagesByApp consts AppNamespaceOrDefault shardName stage =
        pm.ArgoCDAppUpdates.map (fun a => AppNamespaceOrDefault a ++ ":" ++ a.AppName) ∧
      (indexStagesByApp consts AppNamespaceOrDefault shardName stage).length =
        pm.ArgoCDAppUpdates.length ∧
      (∀ (k : Nat) (a : kargoapi.ArgoCDAppUpdate), pm.ArgoCDAppUpdates[k]? = some a →
        (indexStagesByApp consts AppNamespaceOrDefault shardName stage)[k]? =
          some (AppNamespaceOrDefault a ++ ":" ++ a.AppName)) ∧
      (pm.ArgoCDAppUpdates = [] →
        indexStagesByApp consts AppNamespaceOrDefault shardName stage = []) ∧
      (∀ a ∈ pm.ArgoCDAppUpdates,
        AppNamespaceOrDefault a = req.NamespacedName.Namespace →
        a.AppName = req.NamespacedName.Name →
        (req.NamespacedName.Namespace ++ ":" ++ req.NamespacedName.Name) ∈
          indexStagesByApp consts AppNamespaceOrDefault shardName stage)) ∧
    (∀ (σ : Type) (RefreshStage : RefreshStageFn σ) (r : reconciler σ) (ctx : Context) (s : σ),
      (Reconcile consts (recordingRefresh RefreshStage r) r.recording ctx req
        (s, [])).2.2.head? =
        some (ReconcileCall.list
          { FieldSelector := fields.OneTermEqualSelector
              consts.StagesByArgoCDApplicationsIndexField
              (req.NamespacedName.Namespace ++ ":" ++ req.NamespacedName.Name) })) := by
  have hidx := indexStagesByApp_of_match consts AppNamespaceOrDefault shardName stage hshard
  refine ⟨?_, ?_, ?_⟩
  · intro hnone
    rw [hidx, hnone]
  · intro pm hpm
    rw [hidx, hpm]
    refine ⟨rfl, by simp, ?_, ?_, ?_⟩
    · intro k a hk
      simp [hk]
    · intro hnil
      simp [hnil]
    · intro a ha hns hname
      simp only [List.mem_map]
      exact ⟨a, ha, by rw [hns, hname]⟩
  · intro σ RefreshStage r ctx s
    exact Reconcile_first_call consts RefreshStage r ctx req s

/-- C15 at the unlabelled stage `stage2`, the default instance and the changed application
`app1` of namespace `ns1`. -/
theorem indexStagesByApp_keys_witness :
    shardMatches exampleControllerConstants "" exampleStage2 ∧
    ((exampleStage2.Spec.PromotionMechanisms = none →
      indexStagesByApp exampleControllerConstants exampleAppNamespaceOrDefault ""
        exampleStage2 = []) ∧
    (∀ pm, exampleStage2.Spec.PromotionMechanisms = some pm →
      indexStagesByApp exampleControllerConstants exampleAppNamespaceOrDefault ""
          exampleStage2 =
        pm.ArgoCDAppUpdates.map
          (fun a => exampleAppNamespaceOrDefault a ++ ":" ++ a.AppName) ∧
      (indexStagesByApp exampleControllerConstants exampleAppNamespaceOrDefault ""
        exampleStage2).length = pm.ArgoCDAppUpdates.length ∧
      (∀ (k : Nat) (a : kargoapi.ArgoCDAppUpdate), pm.ArgoCDAppUpdates[k]? = some a →
        (indexStagesByApp exampleControllerConstants exampleAppNamespaceOrDefault ""
          exampleStage2)[k]? = some (exampleAppNamespaceOrDefault a ++ ":" ++ a.AppName)) ∧
      (pm.ArgoCDAppUpdates = [] →
        indexStagesByApp exampleControllerConstants exampleAppNamespaceOrDefault ""
          exampleStage2 = []) ∧
      (∀ a ∈ pm.ArgoCDAppUpdates,
        exampleAppNamespaceOrDefault a = exampleRequest.NamespacedName.Namespace →
        a.AppName = exampleRequest.NamespacedName.Name →
        (exampleRequest.NamespacedName.Namespace ++ ":" ++
            exampleRequest.NamespacedName.Name) ∈
          indexStagesByApp exampleControllerConstants exampleAppNamespaceOrDefault ""
            exampleStage2)) ∧
    (∀ (σ : Type) (RefreshStage : RefreshStageFn σ) (r : reconciler σ) (ctx : Context) (s : σ),
      (Reconcile exampleControllerConstants (recordingRefresh RefreshStage r) r.recording ctx
        exampleRequest (s, [])).2.2.head? =
        some (ReconcileCall.list
          { FieldSelector := fields.OneTermEqualSelector
              exampleControllerConstants.StagesByArgoCDApplicationsIndexField
              (exampleRequest.NamespacedName.Namespace ++ ":" ++
                exampleRequest.NamespacedName.Name) }))) :=
  ⟨Or.inl ⟨rfl, by rintro ⟨l, v, h, _⟩; exact absurd h (by simp [exampleStage2])⟩,
    indexStagesByApp_keys exampleControllerConstants exampleAppNamespaceOrDefault ""
      exampleStage2 exampleRequest
      (Or.inl ⟨rfl, by rintro ⟨l, v, h, _⟩; exact absurd h (by simp [exampleStage2])⟩)⟩

end Kargo
